import Mathlib

/-!
Verification development for the boss-data-visualization repository
(`data_loader.py`, `data_processor.py`, `app.py`).

Shallow embedding conventions:
* Calendar timestamps are rationals counting days since 1899-12-30 (the
  Excel serial epoch used by `convert_excel_date`), so 45657 is the
  timestamp of serial day 45657 and fractional parts are times of day.
* IEEE-754 float values that can appear in a pandas numeric column are
  modelled by `F` (NaN, a finite rational, +inf, -inf); float rounding is
  idealised to exact rational arithmetic, which is irrelevant to every
  claim below (they are about NaN/inf-ness and exact structure).
* A raw spreadsheet / dataframe cell is a `PCell`.
* A pandas DataFrame is `DF`: a date column, a flag recording whether the
  date column has datetime64 dtype, and an insertion-ordered association
  list of named columns (Python dicts and pandas column assignment both
  preserve insertion order and update values in place, which `assocSet`
  mirrors).
* Fallible Python code (KeyError, ValueError) is embedded with `Except`.
-/

/-- Model of an IEEE-754 double as it appears in a pandas numeric column:
NaN (which pandas also uses as the missing-value marker), a finite value,
or a signed infinity.  Signed zero is not modelled; no claim depends on it. -/
inductive F where
  | nan : F
  | fin (q : ℚ) : F
  | pinf : F
  | ninf : F
deriving DecidableEq, Repr

/-- IEEE division as performed elementwise by `Series.div`:
`x/0` is `+inf`/`-inf` for nonzero finite `x`, `0/0` is NaN, and NaN
propagates.  This is the actual numpy behaviour (division by zero does NOT
give NaN, contrary to the comment in `calculate_conversion_rates`). -/
def F.div : F → F → F
  | .nan, _ => .nan
  | _, .nan => .nan
  | .fin a, .fin b =>
      if b = 0 then (if a = 0 then .nan else if 0 < a then .pinf else .ninf)
      else .fin (a / b)
  | .fin _, .pinf => .fin 0
  | .fin _, .ninf => .fin 0
  | .pinf, .fin b => if 0 ≤ b then .pinf else .ninf
  | .ninf, .fin b => if 0 ≤ b then .ninf else .pinf
  | .pinf, .pinf => .nan
  | .pinf, .ninf => .nan
  | .ninf, .pinf => .nan
  | .ninf, .ninf => .nan

/-- Multiplication by the constant 100 (`* 100` in `calculate_conversion_rates`). -/
def F.mul100 : F → F
  | .nan => .nan
  | .fin q => .fin (100 * q)
  | .pinf => .pinf
  | .ninf => .ninf

/-- IEEE addition, used to embed `Series.sum` / `Series.mean`. -/
def F.add : F → F → F
  | .nan, _ => .nan
  | _, .nan => .nan
  | .fin a, .fin b => .fin (a + b)
  | .fin _, .pinf => .pinf
  | .pinf, .fin _ => .pinf
  | .fin _, .ninf => .ninf
  | .ninf, .fin _ => .ninf
  | .pinf, .pinf => .pinf
  | .ninf, .ninf => .ninf
  | .pinf, .ninf => .nan
  | .ninf, .pinf => .nan

/-- Pairwise maximum on non-NaN floats (`Series.max` after skipping NaN). -/
def F.maxv : F → F → F
  | .nan, y => y
  | x, .nan => x
  | .fin a, .fin b => .fin (max a b)
  | .pinf, _ => .pinf
  | _, .pinf => .pinf
  | .ninf, y => y
  | x, .ninf => x

/-- Pairwise minimum on non-NaN floats (`Series.min` after skipping NaN). -/
def F.minv : F → F → F
  | .nan, y => y
  | x, .nan => x
  | .fin a, .fin b => .fin (min a b)
  | .ninf, _ => .ninf
  | _, .ninf => .ninf
  | .pinf, y => y
  | x, .pinf => x

/-- A raw cell of the spreadsheet / of a pandas column: a number, a text
cell, an already-parsed timestamp (rational days since 1899-12-30), a
signed infinity (can be produced by the conversion-rate division), or an
empty cell (NaN / NaT, pandas' missing marker). -/
inductive PCell where
  | num (q : ℚ) : PCell
  | str (s : String) : PCell
  | dt (t : ℚ) : PCell
  | posInf : PCell
  | negInf : PCell
  | blank : PCell
deriving DecidableEq, Repr

/-- Numeric view of a cell, as pandas arithmetic sees a numeric column.
Text and timestamp cells are mapped to NaN here; pandas would raise a
TypeError on them instead, a path no claim exercises and which every
theorem below excludes by hypothesis. -/
def cellF : PCell → F
  | .num q => .fin q
  | .posInf => .pinf
  | .negInf => .ninf
  | _ => .nan

/-- Storing a float back into a column cell (NaN is the blank/missing marker). -/
def cellOfF : F → PCell
  | .nan => .blank
  | .fin q => .num q
  | .pinf => .posInf
  | .ninf => .negInf

/-- Python `int()` applied to a nonnegative or negative rational:
truncation toward zero, as in `convert_excel_date`'s `int(excel_date)`. -/
def pythonInt (q : ℚ) : ℤ :=
  if 0 ≤ q then ((q.num.toNat / q.den : ℕ) : ℤ)
  else -(((-q).num.toNat / (-q).den : ℕ) : ℤ)

/-- `convert_excel_date` (data_loader.py lines 11-34): rejects negative
serial numbers with a ValueError, otherwise returns
`datetime(1899,12,30) + timedelta(days=int(excel_date))`, i.e. the
timestamp whose day offset is the truncated serial number. -/
def convert_excel_date (q : ℚ) : Except String ℚ :=
  if q < 0 then .error "negative serial" else .ok ((pythonInt q : ℤ) : ℚ)

/-- The header-label strings skipped by `safe_convert_date` (the Python
list contains duplicates, which are irrelevant to membership). -/
def headerWords : List String := ["日期", "date", "Date", "DATE", "时间"]

/-- ASCII whitespace, as stripped by Python `str.strip()` on this data. -/
def isWsp (c : Char) : Bool :=
  c = ' ' || c = '\t' || c = '\n' || c = '\r'

/-- Python `str.strip()` (structural implementation over the character
list, so that concrete runs reduce inside the kernel). -/
def pyStrip (s : String) : String :=
  ⟨((s.data.dropWhile isWsp).reverse.dropWhile isWsp).reverse⟩

/-- Days since 1899-12-30 (the Excel serial number) of a civil date, via
the standard days-from-civil algorithm; all intermediate divisions have
nonnegative operands for years ≥ 1600, where every integer-division
convention agrees. -/
def excelSerialOfCivil (y m d : ℕ) : ℤ :=
  let yi : ℤ := if m ≤ 2 then (y : ℤ) - 1 else (y : ℤ)
  let era : ℤ := yi / 400
  let yoe : ℤ := yi - era * 400
  let mp : ℤ := ((m : ℤ) + 9) % 12
  let doy : ℤ := (153 * mp + 2) / 5 + (d : ℤ) - 1
  let doe : ℤ := yoe * 365 + yoe / 4 - yoe / 100 + doy
  era * 146097 + doe - 719468 + 25569

/-- Split a character list at `-` separators. -/
def splitDash (cs : List Char) : List (List Char) :=
  cs.foldr
    (fun c acc =>
      match acc with
      | [] => [[c]]
      | g :: gs => if c = '-' then [] :: g :: gs else (c :: g) :: gs)
    [[]]

/-- The decimal number denoted by a nonempty digit string, if any. -/
def natOfDigits : List Char → Option ℕ
  | [] => none
  | cs =>
      cs.foldl
        (fun acc c =>
          match acc with
          | none => none
          | some n =>
              if 48 ≤ c.toNat ∧ c.toNat ≤ 57 then some (10 * n + (c.toNat - 48))
              else none)
        (some 0)

/-- Model of `pd.to_datetime` on a date string: accepts `YYYY-MM-DD`
(years ≥ 1600, the only shape the repository's data uses); anything else
fails (pandas raises, which `safe_convert_date` turns into NaT). -/
def parseDateString (s : String) : Option ℚ :=
  match (splitDash (pyStrip s).data).map natOfDigits with
  | [some y, some m, some d] =>
      if 1600 ≤ y ∧ 1 ≤ m ∧ m ≤ 12 ∧ 1 ≤ d ∧ d ≤ 31 then
        some ((excelSerialOfCivil y m d : ℤ) : ℚ)
      else none
  | _ => none

/-- `pd.Timestamp` bound check for `pd.to_datetime(x, origin='1899-12-30',
unit='D')`: the offset from the 1970 epoch must fit in a signed 64-bit
count of nanoseconds, else OutOfBoundsDatetime is raised (caught by the
bare `except` and collapsed to NaT).  `x` is in days from 1899-12-30 and
1970-01-01 is serial day 25569. -/
def tsBoundsOk (x : ℚ) : Prop :=
  |x - 25569| * 86400000000000 ≤ 9223372036854775807

instance (x : ℚ) : Decidable (tsBoundsOk x) := by
  unfold tsBoundsOk; infer_instance

/-- `safe_convert_date` (data_loader.py lines 112-146): the Date
Normalizer.  NaN→NaT; timestamps pass through; strings are skipped if they
are header words, else parsed (failure→NaT); numbers in [1,100000] go
through `convert_excel_date`; numbers outside that range go through the
fallback `pd.to_datetime(x, origin='1899-12-30', unit='D')`, which
succeeds for ANY in-bounds offset — including negative and fractional
ones — and yields NaT only on an out-of-bounds timestamp.  Returns `none`
for NaT. -/
def safe_convert_date (x : PCell) : Option ℚ :=
  match x with
  | .blank => none
  | .dt t => some t
  | .str s => if pyStrip s ∈ headerWords then none else parseDateString s
  | .num q =>
      if 1 ≤ q ∧ q ≤ 100000 then (convert_excel_date q).toOption
      else if tsBoundsOk q then some q else none
  | .posInf => none
  | .negInf => none

section AssocList

variable {κ : Type} {α : Type} [DecidableEq κ]

/-- First-match lookup in an insertion-ordered association list
(Python dict / pandas column lookup; keys are unique by construction). -/
def assocGet : List (κ × α) → κ → Option α
  | [], _ => none
  | p :: ps, k => if p.1 = k then some p.2 else assocGet ps k

/-- Dict/DataFrame assignment: update the value in place if the key
exists (keeping its position), else append — exactly Python dict insertion
semantics and pandas column assignment. -/
def assocSet : List (κ × α) → κ → α → List (κ × α)
  | [], k, v => [(k, v)]
  | p :: ps, k, v => if p.1 = k then (k, v) :: ps else p :: assocSet ps k v

/-- The value of the last write to key `k` in a list of (key, value)
writes, if any. -/
def lastWrite (k : κ) : List (κ × α) → Option α
  | [] => none
  | p :: ps =>
      match lastWrite k ps with
      | some v => some v
      | none => if p.1 = k then some p.2 else none

theorem assocGet_set (d : List (κ × α)) (k k' : κ) (v : α) :
    assocGet (assocSet d k v) k' = if k = k' then some v else assocGet d k' := by
  induction d with
  | nil => by_cases h : k = k' <;> simp [assocSet, assocGet, h]
  | cons p ps ih =>
      obtain ⟨pk, pv⟩ := p
      by_cases h1 : pk = k
      · subst h1
        by_cases h2 : pk = k'
        · subst h2; simp [assocSet, assocGet]
        · simp [assocSet, assocGet, h2]
      · by_cases h2 : pk = k'
        · subst h2
          have h3 : ¬ k = pk := fun h => h1 h.symm
          simp [assocSet, assocGet, h1, h3]
        · simp [assocSet, assocGet, h1, h2, ih]

theorem assocGet_fold_set (writes : List (κ × α)) (init : List (κ × α)) (k : κ) :
    assocGet (writes.foldl (fun a p => assocSet a p.1 p.2) init) k =
      match lastWrite k writes with
      | some v => some v
      | none => assocGet init k := by
  induction writes generalizing init with
  | nil => simp [lastWrite]
  | cons w ws ih =>
      simp only [List.foldl_cons, ih, lastWrite]
      cases hlw : lastWrite k ws with
      | some v => simp
      | none =>
          simp only [assocGet_set]
          by_cases h : w.1 = k <;> simp [h]

theorem mem_assocSet {q : κ × α} {d : List (κ × α)} {k : κ} {v : α}
    (h : q ∈ assocSet d k v) : q ∈ d ∨ q = (k, v) := by
  induction d with
  | nil => simp [assocSet] at h; simp [h]
  | cons p ps ih =>
      by_cases hp : p.1 = k
      · simp [assocSet, hp] at h
        rcases h with h | h
        · right; simp [h]
        · left; simp [h]
      · simp [assocSet, hp] at h
        rcases h with h | h
        · left; simp [h]
        · rcases ih h with h' | h'
          · left; simp [h']
          · right; exact h'

theorem mem_fold_assocSet {q : κ × α} {writes init : List (κ × α)}
    (h : q ∈ writes.foldl (fun a p => assocSet a p.1 p.2) init) :
    q ∈ init ∨ q ∈ writes := by
  induction writes generalizing init with
  | nil => exact Or.inl h
  | cons w ws ih =>
      simp only [List.foldl_cons] at h
      rcases ih h with h' | h'
      · rcases mem_assocSet h' with h'' | h''
        · exact Or.inl h''
        · right; simp [h'']
      · right; simp [h']

theorem assocGet_mapVal (f : α → α) (l : List (κ × α)) (k : κ) :
    assocGet (l.map (fun p => (p.1, f p.2))) k = (assocGet l k).map f := by
  induction l with
  | nil => simp [assocGet]
  | cons p ps ih =>
      by_cases h : p.1 = k <;> simp [assocGet, h, ih]

theorem lastWrite_eq_none {k : κ} {l : List (κ × α)}
    (h : ∀ p ∈ l, p.1 ≠ k) : lastWrite k l = none := by
  induction l with
  | nil => rfl
  | cons p ps ih =>
      have hps : lastWrite k ps = none := ih (fun q hq => h q (List.mem_cons_of_mem _ hq))
      simp [lastWrite, hps, h p (List.mem_cons_self _ _)]

end AssocList

/-- Last write over an index list mapped to (key, value) writes, when
exactly one index carries the key: the value at that index. -/
theorem lastWrite_map_unique {κ α : Type} [DecidableEq κ]
    (is : List ℕ) (key : ℕ → κ) (val : ℕ → α) (k : κ) (i₀ : ℕ)
    (hmem : i₀ ∈ is) (huniq : ∀ i ∈ is, key i = k ↔ i = i₀) :
    lastWrite k (is.map (fun i => (key i, val i))) = some (val i₀) := by
  induction is with
  | nil => cases hmem
  | cons j js ih =>
      by_cases hj : i₀ ∈ js
      · have := ih hj (fun i hi => huniq i (List.mem_cons_of_mem _ hi))
        simp [lastWrite, this]
      · have hji : j = i₀ := by
          rcases List.mem_cons.mp hmem with h | h
          · exact h.symm
          · exact absurd h hj
        subst hji
        have hnone : lastWrite k (js.map (fun i => (key i, val i))) = none := by
          apply lastWrite_eq_none
          intro p hp
          rcases List.mem_map.mp hp with ⟨i, hi, rfl⟩
          intro hk
          exact hj ((huniq i (List.mem_cons_of_mem _ hi)).mp hk ▸ hi)
        have hkey : key j = k := (huniq j (List.mem_cons_self _ _)).mpr rfl
        simp [lastWrite, hnone, hkey]

/-- Last write over a mapped index list none of whose indices carries the key. -/
theorem lastWrite_map_none {κ α : Type} [DecidableEq κ]
    (is : List ℕ) (key : ℕ → κ) (val : ℕ → α) (k : κ)
    (h : ∀ i ∈ is, key i ≠ k) :
    lastWrite k (is.map (fun i => (key i, val i))) = none := by
  apply lastWrite_eq_none
  intro p hp
  rcases List.mem_map.mp hp with ⟨i, hi, rfl⟩
  exact h i hi

instance {ε α : Type} [DecidableEq ε] [DecidableEq α] : DecidableEq (Except ε α) :=
  fun a b =>
    match a, b with
    | .error e, .error f =>
        if h : e = f then .isTrue (by rw [h])
        else .isFalse (by intro hc; cases hc; exact h rfl)
    | .ok v, .ok v' =>
        if h : v = v' then .isTrue (by rw [h])
        else .isFalse (by intro hc; cases hc; exact h rfl)
    | .error _, .ok _ => .isFalse (by intro hc; cases hc)
    | .ok _, .error _ => .isFalse (by intro hc; cases hc)

/-- A pandas DataFrame as the Query Layer sees it: the `date` column, a
flag recording whether that column has datetime64 dtype, and the remaining
named columns as an insertion-ordered dict. -/
structure DF where
  dates : List PCell
  dateIsDatetime : Bool
  cols : List (String × List PCell)
deriving DecidableEq, Repr

/-- `df[name]` on a column: `KeyError` if the column does not exist. -/
def colGetE (df : DF) (name : String) : Except String (List PCell) :=
  match assocGet df.cols name with
  | some v => .ok v
  | none => .error ("KeyError: " ++ name)

/-- Keep the elements of `l` whose corresponding mask entry is true
(boolean-mask row selection `df[mask]`). -/
def maskFilter : List Bool → List PCell → List PCell
  | true :: bs, x :: xs => x :: maskFilter bs xs
  | false :: bs, _ :: xs => maskFilter bs xs
  | _, _ => []

/-- `pd.to_datetime` applied to one cell of a non-datetime date column
(the coercion performed in place by `filter_by_date_range`): timestamps
pass through, NaN becomes NaT, integers/floats are nanoseconds since the
1970 epoch (expressed in our days-since-1899-12-30 scale), strings are
parsed, and unparseable input raises. -/
def coerceCell : PCell → Except String PCell
  | .dt t => .ok (.dt t)
  | .blank => .ok .blank
  | .num n => .ok (.dt (n / 86400000000000 + 25569))
  | .str s =>
      match parseDateString s with
      | some t => .ok (.dt t)
      | none => .error ("could not convert string to datetime: " ++ s)
  | .posInf => .error "cannot convert infinity to datetime"
  | .negInf => .error "cannot convert infinity to datetime"

/-- The in-place dtype coercion at data_processor.py lines 26-27: if the
date column is not datetime64, `df['date'] = pd.to_datetime(df['date'])`
REASSIGNS the caller's column.  Returns the (possibly mutated) frame. -/
def coerceDF (df : DF) : Except String DF :=
  if df.dateIsDatetime then .ok df
  else (df.dates.mapM coerceCell).map
    (fun ds => { df with dates := ds, dateIsDatetime := true })

/-- Is a date cell inside the inclusive range?  NaT (and any non-timestamp
cell) compares false, exactly as pandas comparisons with NaT do. -/
def cellInRange (startDt endDt : ℚ) : PCell → Bool
  | .dt t => decide (startDt ≤ t ∧ t ≤ endDt)
  | _ => false

/-- The pure row-selection part of `filter_by_date_range`, applied to a
frame whose date column is already datetime-typed. -/
def filterPure (df : DF) (startDt endDt : ℚ) : DF :=
  let mask := df.dates.map (cellInRange startDt endDt)
  { dates := maskFilter mask df.dates
    dateIsDatetime := df.dateIsDatetime
    cols := df.cols.map (fun p => (p.1, maskFilter mask p.2)) }

/-- `filter_by_date_range` (data_processor.py lines 10-33), with the
start/end dates already parsed (the Python code parses them from
`YYYY-MM-DD` strings).  Returns the result (or the raised error) TOGETHER
with the post-state of the input frame, because the dtype coercion at
lines 26-27 mutates the caller's frame in place. -/
def filter_by_date_range (df : DF) (startDt endDt : ℚ) :
    Except String DF × DF :=
  match coerceDF df with
  | .error e => (.error e, df)
  | .ok df1 => (.ok (filterPure df1 startDt endDt), df1)

/-- `calculate_conversion_rates` (data_processor.py lines 36-63): copies
the frame, then adds `user1_conversion_rate` and `user2_conversion_rate`
columns computed as `add.div(exchange) * 100` elementwise, with pandas /
IEEE division semantics (`F.div`).  The input frame is never mutated (the
copy is made first), so the post-state is the input. -/
def calculate_conversion_rates (df : DF) : Except String DF × DF :=
  ((do
    let a1 ← colGetE df "user1_add"
    let e1 ← colGetE df "user1_exchange"
    let r1 := List.zipWith
      (fun a b => cellOfF (F.mul100 (F.div (cellF a) (cellF b)))) a1 e1
    let a2 ← colGetE df "user2_add"
    let e2 ← colGetE df "user2_exchange"
    let r2 := List.zipWith
      (fun a b => cellOfF (F.mul100 (F.div (cellF a) (cellF b)))) a2 e2
    pure { df with
            cols := assocSet
              (assocSet df.cols "user1_conversion_rate" r1)
              "user2_conversion_rate" r2 }), df)

/-- The metric-name table shared by `get_metric_data`,
`calculate_statistics` and `get_dual_metric_data`. -/
def metric_mapping : List (String × String × String) :=
  [("曝光", "user1_exposure", "user2_exposure"),
   ("新招呼", "user1_greet", "user2_greet"),
   ("交换微信", "user1_exchange", "user2_exchange"),
   ("添加微信", "user1_add", "user2_add"),
   ("补刀次数", "user1_kill", "user2_kill")]

/-- `get_metric_data` (data_processor.py lines 66-100): ValueError on an
unrecognized metric name, otherwise `(dates, user1 column, user2 column)`;
a mapped-but-missing column raises KeyError.  Read-only: performs no
assignment to the input frame. -/
def get_metric_data (df : DF) (metric : String) :
    Except String (List PCell × List PCell × List PCell) := do
  match assocGet metric_mapping metric with
  | none => .error ("无效的指标名称: " ++ metric)
  | some (c1, c2) =>
      let v1 ← colGetE df c1
      let v2 ← colGetE df c2
      pure (df.dates, v1, v2)

/-- `get_dual_metric_data` (data_processor.py lines 149-191): like
`get_metric_data` for two metric names (distinctness is NOT enforced
here).  Read-only. -/
def get_dual_metric_data (df : DF) (m1 m2 : String) :
    Except String (List PCell × List PCell × List PCell × List PCell × List PCell) := do
  match assocGet metric_mapping m1, assocGet metric_mapping m2 with
  | none, _ => .error ("无效的指标1名称: " ++ m1)
  | some _, none => .error ("无效的指标2名称: " ++ m2)
  | some (a1, a2), some (b1, b2) =>
      let v1 ← colGetE df a1
      let v2 ← colGetE df a2
      let w1 ← colGetE df b1
      let w2 ← colGetE df b2
      pure (df.dates, v1, v2, w1, w2)

/-- The non-NaN float values of a column, in order (`skipna` view). -/
def nonNanF (l : List PCell) : List F :=
  (l.map cellF).filter (fun x => x ≠ F.nan)

/-- `Series.sum()` with pandas defaults: sum of the non-NaN values,
`0.0` when there are none. -/
def pandasSum (l : List PCell) : F :=
  (nonNanF l).foldl F.add (F.fin 0)

/-- `Series.mean()`: NaN when there are no non-NaN values, else their
sum divided by their count. -/
def pandasMean (l : List PCell) : F :=
  let v := nonNanF l
  if v.isEmpty then F.nan else (v.foldl F.add (F.fin 0)).div (F.fin v.length)

/-- `Series.max()`: NaN when there are no non-NaN values. -/
def pandasMax (l : List PCell) : F :=
  match nonNanF l with
  | [] => F.nan
  | x :: xs => xs.foldl F.maxv x

/-- `Series.min()`: NaN when there are no non-NaN values. -/
def pandasMin (l : List PCell) : F :=
  match nonNanF l with
  | [] => F.nan
  | x :: xs => xs.foldl F.minv x

/-- Per-entity statistics record returned by `calculate_statistics`. -/
structure StatR where
  mean : F
  max : F
  min : F
  sum : F
deriving DecidableEq, Repr

/-- The two-entity statistics dict. -/
structure Stats where
  user1 : StatR
  user2 : StatR
deriving DecidableEq, Repr

/-- `calculate_statistics` (data_processor.py lines 103-146): ValueError
on an unrecognized metric, KeyError on a missing column, else per-entity
mean/max/min/sum with pandas `skipna` semantics.  Read-only. -/
def calculate_statistics (df : DF) (metric : String) : Except String Stats := do
  match assocGet metric_mapping metric with
  | none => .error ("无效的指标名称: " ++ metric)
  | some (c1, c2) =>
      let v1 ← colGetE df c1
      let v2 ← colGetE df c2
      pure ⟨⟨pandasMean v1, pandasMax v1, pandasMin v1, pandasSum v1⟩,
            ⟨pandasMean v2, pandasMax v2, pandasMin v2, pandasSum v2⟩⟩

/-- The raw workbook as `load_excel_data` sees it after the initial
`pd.read_excel(file_path)` with the first raw row as header:
`w` is the number of columns pandas infers, and `drows` are the
dataframe's data rows, i.e. the raw rows from index 1 on — the first of
which is the metric-label row (row index 1 of the raw sheet), the rest the
data body.  Rows shorter than `w` read as blank (NaN) in the missing
positions.  Column keys are modelled by their index: the real keys are the
names pandas derives from raw row 0 (entity names / `Unnamed: k`), which
are position-stable and pairwise distinct for the sheet shapes the spec
describes (row 0 is blank except columns 0 and 7). -/
structure Sheet where
  w : ℕ
  drows : List (List PCell)
deriving DecidableEq, Repr

/-- The trimmed text of the label row (raw row 1, `df_header.iloc[1]`) at
column `i`: `str(cell).strip()` for a present text cell, `''` for a blank
one.  A numeric or timestamp cell would stringify to text that matches no
recognized label, which the `""` here also does not. -/
def labelAt (s : Sheet) (i : ℕ) : String :=
  match (s.drows.headD []).getD i PCell.blank with
  | .str t => pyStrip t
  | _ => ""

/-- Entity-1 label matching (the if/elif chain at data_loader.py 168-177). -/
def matchLabel1 (l : String) : Option String :=
  if l = "曝光" then some "user1_exposure"
  else if l = "新招呼" then some "user1_greet"
  else if l = "补刀次数" then some "user1_kill"
  else if l = "交换微信" then some "user1_exchange"
  else if l = "添加微信" then some "user1_add"
  else none

/-- Entity-2 label matching (the if/elif chain at data_loader.py 183-192). -/
def matchLabel2 (l : String) : Option String :=
  if l = "曝光" then some "user2_exposure"
  else if l = "新招呼" then some "user2_greet"
  else if l = "补刀次数" then some "user2_kill"
  else if l = "交换微信" then some "user2_exchange"
  else if l = "添加微信" then some "user2_add"
  else none

/-- `range(a, b)` as a list. -/
def rangeN (a b : ℕ) : List ℕ := (List.range b).drop a

/-- The label-driven entity-1 block scan, `for col_idx in range(1, min(6,
len(header_row)))` (data_loader.py 165-177). -/
def user1_cols (s : Sheet) : List (ℕ × String) :=
  (rangeN 1 (min 6 s.w)).filterMap
    (fun i => (matchLabel1 (labelAt s i)).map (fun n => (i, n)))

/-- The label-driven entity-2 block scan, `for col_idx in range(8, min(13,
len(header_row)))` (data_loader.py 180-192). -/
def user2_cols (s : Sheet) : List (ℕ × String) :=
  (rangeN 8 (min 13 s.w)).filterMap
    (fun i => (matchLabel2 (labelAt s i)).map (fun n => (i, n)))

/-- `column_mapping` (data_loader.py 154-201): starts with the HARDCODED
entries `headers[1] → user1_exposure`, `headers[2] → user1_greet`
regardless of those columns' labels, then merges the label-driven scans
(dict update-in-place, guarded by `col_idx < len(headers)`). -/
def column_mapping (s : Sheet) : List (ℕ × String) :=
  (user2_cols s).foldl
    (fun a p => if p.1 < s.w then assocSet a p.1 p.2 else a)
    ((user1_cols s).foldl
      (fun a p => if p.1 < s.w then assocSet a p.1 p.2 else a)
      [(1, "user1_exposure"), (2, "user1_greet")])

/-- The dataframe column at raw column index `i` (label row included). -/
def colData (s : Sheet) (i : ℕ) : List PCell :=
  s.drows.map (fun r => r.getD i PCell.blank)

/-- The canonical-named metric columns of `new_df` (data_loader.py
203-208): `new_df[new_col] = df[old_col]` over the mapping's items in
insertion order (a later assignment to the same canonical name
overwrites), guarded by `old_col in df.columns`. -/
def new_cols (s : Sheet) : List (String × List PCell) :=
  (column_mapping s).foldl
    (fun a p => if p.1 < s.w then assocSet a p.2 (colData s p.1) else a) []

/-- The raw date column `df[df.columns[0]]` (label row included: its first
entry is the literal text `日期` of the label row). -/
def dateColumn (s : Sheet) : List PCell := s.drows.map (fun r => r.getD 0 PCell.blank)

/-- Does pandas give the raw date column datetime64 dtype?  Yes exactly
when every cell is a timestamp or NaT, with at least one timestamp. -/
def isDatetimeCol (dc : List PCell) : Bool :=
  (dc.all fun c => match c with | .dt _ => true | .blank => true | _ => false) &&
  (dc.any fun c => match c with | .dt _ => true | _ => false)

/-- The pandas dtype string reported for the raw date column in the
zero-valid-dates error message (`date_col.dtype`). -/
def inferDtype (dc : List PCell) : String :=
  if isDatetimeCol dc then "datetime64[ns]"
  else if dc.all (fun c => match c with | .num _ => true | .blank => true | _ => false) then
    (if dc.all (fun c => match c with | .num q => q.den = 1 | _ => false)
     then "int64" else "float64")
  else "object"

/-- The normalized date column: the datetime64 branch passes timestamps
through (`pd.to_datetime` on a datetime column is the identity), otherwise
each cell goes through `safe_convert_date` (`date_col.apply(...)`).
`none` is NaT. -/
def parsedDates (s : Sheet) : List (Option ℚ) :=
  let dc := dateColumn s
  if isDatetimeCol dc then
    dc.map (fun c => match c with | .dt t => some t | _ => none)
  else dc.map safe_convert_date

/-- Stable insertion of an (index, key) pair: after all equal keys. -/
def insertPair (x : ℕ × ℚ) : List (ℕ × ℚ) → List (ℕ × ℚ)
  | [] => [x]
  | y :: ys => if y.2 ≤ x.2 then y :: insertPair x ys else x :: y :: ys

/-- The row permutation chosen by `sort_values('date')`: indices sorted by
key, ascending.  The MODEL fixes ties to original order (a stable sort);
the real numpy default quicksort does not promise any tie order, which is
why claim C4's stability assertion is not settled by this development —
no other claim is sensitive to the tie order, since the permutation is a
function of the date keys alone and is applied to every column alike. -/
def sortPerm (keys : List ℚ) : List ℕ :=
  (keys.enum.foldl (fun acc p => insertPair p acc) []).map (fun p => p.1)

/-- Reorder a column by the sort permutation. -/
def applyPerm (perm : List ℕ) (l : List PCell) : List PCell :=
  perm.map (fun i => l.getD i PCell.blank)

/-- The fatal ingestion errors of `load_excel_data`: empty file, fewer
than 12 columns, or zero parseable dates — the last carrying the detected
dtype of the raw date column and its first five raw values, as the Python
error message does. -/
inductive LoadErr where
  | emptyFile : LoadErr
  | tooFewCols (n : ℕ) : LoadErr
  | noDates (dtype : String) (sample : List PCell) : LoadErr
deriving DecidableEq, Repr

/-- `load_excel_data` (data_loader.py lines 37-239), modulo the entity
names (which no claim concerns): empty check, 12-column check, date
normalization, header-driven column mapping, canonical-column extraction,
drop of NaT rows, zero-valid-dates error, sort by date.  On success the
`date` column holds timestamps (datetime64 dtype). -/
def load_excel_data (s : Sheet) : Except LoadErr DF :=
  if s.drows.isEmpty then .error .emptyFile
  else if s.w < 12 then .error (.tooFewCols s.w)
  else
    let dc := dateColumn s
    let pdates := parsedDates s
    let mask := pdates.map Option.isSome
    let kept : List ℚ := pdates.filterMap id
    if kept.isEmpty then .error (.noDates (inferDtype dc) (dc.take 5))
    else
      let perm := sortPerm kept
      .ok { dates := applyPerm perm (kept.map PCell.dt)
            dateIsDatetime := true
            cols := (new_cols s).map
              (fun p => (p.1, applyPerm perm (maskFilter mask p.2))) }

/-! ### Claim C1 -/

/-- C1: the claim says the conversion rate is absent (NaN) whenever the
exchange value is 0, in particular at exchange = 0, add = 5.  The code's
own comment (data_processor.py line 61) asserts the same.  In fact pandas
`Series.div` follows IEEE float division, so 5/0 is +infinity, not NaN:
on a one-row frame with user1_add = 5 and user1_exchange = 0 the computed
`user1_conversion_rate` cell is `PCell.posInf` — an infinite value, not
the absent marker `PCell.blank`.  (The operation indeed never raises on
numeric columns, and absent operands do propagate to absent; it is exactly
the zero divisor with a nonzero dividend that contradicts the claim.) -/
theorem C1_conversion_rate_div_by_zero_is_infinite :
    (calculate_conversion_rates
        ⟨[PCell.dt 45000], true,
         [("user1_add", [PCell.num 5]), ("user1_exchange", [PCell.num 0]),
          ("user2_add", [PCell.num 3]), ("user2_exchange", [PCell.num 2])]⟩).1.toOption.map
        (fun r => assocGet r.cols "user1_conversion_rate")
      = some (some [PCell.posInf]) ∧ PCell.posInf ≠ PCell.blank := by
  exact ⟨by decide, by decide⟩

/-! ### Claim C3 -/

/-- C3 counterexample: the claim says every negative numeric input and the
input 0.999 normalize to "no date".  In the code, any numeric input
outside [1, 100000] goes to the fallback
`pd.to_datetime(x, origin='1899-12-30', unit='D')`, which succeeds for any
in-bounds offset: −5 yields the timestamp 1899-12-25 (offset −5) and
0.999 yields 1899-12-30 23:58:33.6 (offset 999/1000) — not "no date". -/
theorem C3_counterexample_fallback_parses :
    safe_convert_date (.num (-5)) = some (-5) ∧
    safe_convert_date (.num (999 / 1000)) = some (999 / 1000) := by
  constructor
  · show safe_convert_date (.num (-5)) = some (-5)
    simp only [safe_convert_date]
    rw [if_neg (by norm_num), if_pos (by unfold tsBoundsOk; norm_num)]
  · show safe_convert_date (.num (999 / 1000)) = some (999 / 1000)
    simp only [safe_convert_date]
    have hb : tsBoundsOk (999 / 1000) := by
      unfold tsBoundsOk
      rw [abs_of_neg (by norm_num : (999 / 1000 : ℚ) - 25569 < 0)]
      norm_num
    rw [if_neg (by norm_num), if_pos hb]

/-- C3 amended: a numeric input below the lower boundary 1 (so every
negative number and 0.999) is handled by the fallback conversion, which
returns the input itself as a day offset from 1899-12-30 whenever that
offset is within the pandas Timestamp bounds, and "no date" only when it
is out of bounds. -/
theorem C3_amended_fallback_conversion (x : ℚ) (hx : x < 1) :
    safe_convert_date (.num x) = (if tsBoundsOk x then some x else none) := by
  simp only [safe_convert_date]
  rw [if_neg (fun h => absurd h.1 (not_le.mpr hx))]

/-- C3 amended, witnessed at the negative input −5 (in bounds, so a real
date comes back). -/
theorem C3_amended_fallback_conversion_witness :
    (-5 : ℚ) < 1 ∧
      safe_convert_date (.num (-5)) = (if tsBoundsOk (-5) then some (-5) else none) :=
  ⟨by norm_num, C3_amended_fallback_conversion (-5) (by norm_num)⟩

/-! ### Claim C10 -/

/-- Python `int()` on a nonnegative rational is the floor. -/
theorem pythonInt_eq_floor (q : ℚ) (hq : 0 ≤ q) : pythonInt q = ⌊q⌋ := by
  have hnum : 0 ≤ q.num := Rat.num_nonneg.mpr hq
  conv_rhs => rw [← Rat.num_div_den q]
  rw [Rat.floor_intCast_div_natCast]
  rw [pythonInt, if_pos hq]
  rw [Int.ofNat_ediv]
  rw [Int.toNat_of_nonneg hnum]

/-- C10: for numeric input `x` with 1 ≤ x ≤ 100000 the Date Normalizer
truncates the fractional part: `int(excel_date)` floors a nonnegative
number, so the result is the same calendar date as for ⌊x⌋, namely the
timestamp at whole-day offset ⌊x⌋ from 1899-12-30. -/
theorem C10_day_count_truncated (x : ℚ) (h1 : 1 ≤ x) (h2 : x ≤ 100000) :
    safe_convert_date (.num x) = safe_convert_date (.num ((⌊x⌋ : ℤ) : ℚ)) ∧
    safe_convert_date (.num x) = some ((⌊x⌋ : ℤ) : ℚ) := by
  have hx0 : (0 : ℚ) ≤ x := le_trans (by norm_num) h1
  have hf1 : (1 : ℤ) ≤ ⌊x⌋ := by
    rw [Int.le_floor]; exact_mod_cast h1
  have hf2 : ⌊x⌋ ≤ 100000 := by
    have := Int.floor_le_floor h2
    simpa using this
  have hc1 : (1 : ℚ) ≤ ((⌊x⌋ : ℤ) : ℚ) := by exact_mod_cast hf1
  have hc2 : ((⌊x⌋ : ℤ) : ℚ) ≤ 100000 := by exact_mod_cast hf2
  have hcf0 : (0 : ℚ) ≤ ((⌊x⌋ : ℤ) : ℚ) := le_trans (by norm_num) hc1
  have e1 : safe_convert_date (.num x) = some ((pythonInt x : ℤ) : ℚ) := by
    simp only [safe_convert_date]
    rw [if_pos ⟨h1, h2⟩, convert_excel_date, if_neg (not_lt.mpr hx0)]
    rfl
  have e2 : safe_convert_date (.num ((⌊x⌋ : ℤ) : ℚ))
      = some ((pythonInt ((⌊x⌋ : ℤ) : ℚ) : ℤ) : ℚ) := by
    simp only [safe_convert_date]
    rw [if_pos ⟨hc1, hc2⟩, convert_excel_date, if_neg (not_lt.mpr hcf0)]
    rfl
  have hfx : pythonInt x = ⌊x⌋ := pythonInt_eq_floor x hx0
  have hff : pythonInt ((⌊x⌋ : ℤ) : ℚ) = ⌊x⌋ := by
    rw [pythonInt_eq_floor _ hcf0, Int.floor_intCast]
  refine ⟨?_, ?_⟩
  · rw [e1, e2, hfx, hff]
  · rw [e1, hfx]

/-- C10 witnessed at x = 45657.5 (= 91315/2): the normalizer agrees with
its value at the floor 45657. -/
theorem C10_day_count_truncated_witness :
    (1 : ℚ) ≤ 91315 / 2 ∧ (91315 / 2 : ℚ) ≤ 100000 ∧
      safe_convert_date (.num (91315 / 2))
        = safe_convert_date (.num ((⌊(91315 / 2 : ℚ)⌋ : ℤ) : ℚ)) :=
  ⟨by norm_num, by norm_num,
    (C10_day_count_truncated (91315 / 2) (by norm_num) (by norm_num)).1⟩

/-! ### Claim C8 -/

/-- C8 counterexample: the claim says every Query Layer operation leaves
every input frame unchanged.  But `filter_by_date_range` executes
`df['date'] = pd.to_datetime(df['date'])` when the date column is not
datetime-typed, reassigning the caller's column in place: on a frame whose
single date cell is the string "2024-01-05" the post-state differs from
the input (the text cell has been replaced by a parsed timestamp and the
column dtype changed). -/
theorem C8_counterexample_filter_mutates :
    (filter_by_date_range ⟨[PCell.str "2024-01-05"], false, []⟩ 0 100000).2
      ≠ ⟨[PCell.str "2024-01-05"], false, []⟩ := by decide

/-- C8 amended: on a frame whose date column is already datetime-typed —
in particular any frame produced by `load_excel_data` — the range filter
performs no coercion and leaves its input unchanged, and the
conversion-rate operation always leaves its input unchanged (it writes
only to its own copy); the remaining three operations (metric lookup,
dual-metric lookup, statistics) contain no assignment at all and are
embedded as pure functions of the frame. -/
theorem C8_amended_read_only (df : DF) (sd ed : ℚ)
    (hdt : df.dateIsDatetime = true) :
    (filter_by_date_range df sd ed).2 = df ∧
    (calculate_conversion_rates df).2 = df := by
  constructor
  · simp [filter_by_date_range, coerceDF, hdt]
  · rfl

/-- C8 amended, witnessed on a concrete loaded-shape frame. -/
theorem C8_amended_read_only_witness :
    (⟨[PCell.dt 45002], true, [("user1_add", [PCell.num 1])]⟩ : DF).dateIsDatetime = true ∧
    (filter_by_date_range ⟨[PCell.dt 45002], true, [("user1_add", [PCell.num 1])]⟩ 0 100000).2
      = ⟨[PCell.dt 45002], true, [("user1_add", [PCell.num 1])]⟩ :=
  ⟨rfl, (C8_amended_read_only _ 0 100000 rfl).1⟩

/-! ### Claim C2 -/

/-- A concrete 12-column sheet (no kill-count block): label row plus two
data rows, entity-2 block in columns 8-11. -/
def sheet12 : Sheet :=
  ⟨12, [[PCell.str "日期", PCell.str "曝光", PCell.str "新招呼", PCell.str "交换微信",
         PCell.str "添加微信", PCell.blank, PCell.blank, PCell.str "日期",
         PCell.str "曝光", PCell.str "新招呼", PCell.str "交换微信", PCell.str "添加微信"],
        [PCell.num 45002, PCell.num 10, PCell.num 2, PCell.num 3, PCell.num 4,
         PCell.blank, PCell.blank, PCell.num 45002, PCell.num 20, PCell.num 5,
         PCell.num 6, PCell.num 7],
        [PCell.num 45001, PCell.num 11, PCell.num 12, PCell.num 13, PCell.num 14,
         PCell.blank, PCell.blank, PCell.num 45001, PCell.num 21, PCell.num 22,
         PCell.num 23, PCell.num 24]]⟩

/-- The table `load_excel_data` builds from `sheet12`: no `user1_kill` or
`user2_kill` column is ever created. -/
def df12 : DF :=
  ⟨[PCell.dt 45001, PCell.dt 45002], true,
   [("user1_exposure", [PCell.num 11, PCell.num 10]),
    ("user1_greet", [PCell.num 12, PCell.num 2]),
    ("user1_exchange", [PCell.num 13, PCell.num 3]),
    ("user1_add", [PCell.num 14, PCell.num 4]),
    ("user2_exposure", [PCell.num 21, PCell.num 20]),
    ("user2_greet", [PCell.num 22, PCell.num 5]),
    ("user2_exchange", [PCell.num 23, PCell.num 6]),
    ("user2_add", [PCell.num 24, PCell.num 7])]⟩

/-- C2 counterexample: the claim says kill-count metric lookup on a table
built from a 12-column sheet returns all-absent sequences and raises no
error.  In fact the loader never creates the kill columns for a 12-column
sheet, so `get_metric_data` hits `df['user1_kill']` and raises a KeyError:
on `sheet12` the load succeeds but the lookup returns an error, not three
sequences. -/
theorem C2_counterexample_kill_lookup_raises :
    load_excel_data sheet12 = .ok df12 ∧
    get_metric_data df12 "补刀次数" = .error "KeyError: user1_kill" := by
  exact ⟨by decide, by decide⟩

/-- A guarded fold is the fold over the filtered list. -/
theorem foldl_ite_eq {α β : Type} (g : β → Prop) [DecidablePred g]
    (f : α → β → α) (init : α) (l : List β) :
    l.foldl (fun a b => if g b then f a b else a) init
      = (l.filter (fun b => decide (g b))).foldl f init := by
  induction l generalizing init with
  | nil => rfl
  | cons b bs ih =>
      by_cases h : g b <;> simp [List.filter_cons, h, ih]

/-- The only label that the entity-1 matcher sends to `user1_kill`. -/
theorem matchLabel1_kill_inv {l n : String} (h : matchLabel1 l = some n)
    (hn : n = "user1_kill") : l = "补刀次数" := by
  subst hn
  unfold matchLabel1 at h
  split_ifs at h with h1 h2 h3 h4 h5 <;> simp_all

/-- Entity-2 matcher values are never `user1_kill`. -/
theorem matchLabel2_ne_user1_kill {l n : String} (h : matchLabel2 l = some n) :
    n ≠ "user1_kill" := by
  unfold matchLabel2 at h
  split_ifs at h
  all_goals
    first
      | exact Option.noConfusion h
      | (injection h with h; subst h; decide)

/-- If no label in the header row (columns 0-12) is the kill-count label,
then no entry of `column_mapping` carries a kill canonical name. -/
theorem colmap_values_no_kill (s : Sheet)
    (hkill : ∀ i < 13, labelAt s i ≠ "补刀次数") :
    ∀ q ∈ column_mapping s, q.2 ≠ "user1_kill" := by
  intro q hq
  rw [column_mapping, foldl_ite_eq, foldl_ite_eq] at hq
  rcases mem_fold_assocSet hq with hq1 | hq2
  · rcases mem_fold_assocSet hq1 with hq0 | hq1'
    · simp only [List.mem_cons, List.not_mem_nil, or_false] at hq0
      rcases hq0 with h | h <;> (rw [h]; decide)
    · have hqu : q ∈ user1_cols s := List.mem_of_mem_filter hq1'
      rw [user1_cols] at hqu
      rcases List.mem_filterMap.mp hqu with ⟨i, hi, hmap⟩
      rcases Option.map_eq_some'.mp hmap with ⟨n, hn, hpair⟩
      have hi13 : i < 13 := by
        have : i < min 6 s.w := by
          have := List.mem_range.mp (List.mem_of_mem_drop hi)
          exact this
        omega
      intro hk
      have hq2k : n = "user1_kill" := by
        have : q.2 = n := by rw [← hpair]
        rw [← this, hk]
      exact hkill i hi13 (matchLabel1_kill_inv hn hq2k)
  · have hqu : q ∈ user2_cols s := List.mem_of_mem_filter hq2
    rw [user2_cols] at hqu
    rcases List.mem_filterMap.mp hqu with ⟨i, hi, hmap⟩
    rcases Option.map_eq_some'.mp hmap with ⟨n, hn, hpair⟩
    have : q.2 = n := by rw [← hpair]
    rw [this]
    exact matchLabel2_ne_user1_kill hn

/-- On a 12-column sheet with no kill-count label, the loaded table has no
`user1_kill` column at all. -/
theorem no_user1_kill_col (s : Sheet)
    (hkill : ∀ i < 13, labelAt s i ≠ "补刀次数") :
    assocGet (new_cols s) "user1_kill" = none := by
  rw [new_cols, foldl_ite_eq]
  have hmap : ((column_mapping s).filter (fun p => decide (p.1 < s.w))).foldl
        (fun a p => assocSet a p.2 (colData s p.1)) []
      = (((column_mapping s).filter (fun p => decide (p.1 < s.w))).map
          (fun p => (p.2, colData s p.1))).foldl
          (fun a q => assocSet a q.1 q.2) [] := by
    rw [List.foldl_map]
  rw [hmap, assocGet_fold_set]
  have hlw : lastWrite "user1_kill"
      (((column_mapping s).filter (fun p => decide (p.1 < s.w))).map
        (fun p => (p.2, colData s p.1))) = none := by
    apply lastWrite_eq_none
    intro p hp
    rcases List.mem_map.mp hp with ⟨r, hr, rfl⟩
    exact colmap_values_no_kill s hkill r (List.mem_of_mem_filter hr)
  rw [hlw]
  rfl

/-- C2 amended: for every table built by the loader from a 12-column
sheet with no kill-count block, looking up the kill-count metric raises a
KeyError on the missing `user1_kill` column — it does not return
all-absent value sequences. -/
theorem C2_amended_kill_lookup_keyerror (s : Sheet) (df : DF)
    (hkill : ∀ i < 13, labelAt s i ≠ "补刀次数")
    (hok : load_excel_data s = .ok df) :
    get_metric_data df "补刀次数" = .error "KeyError: user1_kill" := by
  have hcols : assocGet df.cols "user1_kill" = none := by
    unfold load_excel_data at hok
    split_ifs at hok with he hw2
    dsimp only at hok
    split_ifs at hok with hk
    simp only [Except.ok.injEq] at hok
    rw [← hok]
    dsimp only
    rw [assocGet_mapVal
      (fun c => applyPerm (sortPerm (List.filterMap id (parsedDates s)))
        (maskFilter (List.map Option.isSome (parsedDates s)) c))]
    rw [no_user1_kill_col s hkill]
    rfl
  have hm : assocGet metric_mapping "补刀次数" = some ("user1_kill", "user2_kill") := by
    decide
  rw [get_metric_data, hm]
  simp only [colGetE, hcols]
  rfl

/-- C2 amended, witnessed on `sheet12`. -/
theorem C2_amended_kill_lookup_keyerror_witness :
    (∀ i < 13, labelAt sheet12 i ≠ "补刀次数") ∧
    get_metric_data df12 "补刀次数" = .error "KeyError: user1_kill" :=
  ⟨by decide, C2_amended_kill_lookup_keyerror sheet12 df12 (by decide) (by decide)⟩

/-! ### Claim C5 -/

/-- C5: on a nonempty sheet with at least 12 columns whose raw date
column is not already datetime-typed (the generic case, where the Date
Normalizer runs), the Table Builder raises the zero-valid-dates ingestion
error IF AND ONLY IF every dataframe row's date cell normalizes to "no
date"; the error carries exactly the detected dtype of the raw date
column and its first five raw values, and (being a raised exception) no
table is produced in that case — while if some date survives, the load
never raises this error. -/
theorem C5_zero_valid_dates_error (s : Sheet)
    (hne : s.drows ≠ [])
    (hw : 12 ≤ s.w)
    (hdt : isDatetimeCol (dateColumn s) = false) :
    (load_excel_data s
        = .error (.noDates (inferDtype (dateColumn s)) ((dateColumn s).take 5)))
      ↔ ∀ c ∈ dateColumn s, safe_convert_date c = none := by
  have hpd : parsedDates s = (dateColumn s).map safe_convert_date := by
    simp [parsedDates, hdt]
  have hkeq : (List.filterMap id (parsedDates s)).isEmpty = true
      ↔ ∀ c ∈ dateColumn s, safe_convert_date c = none := by
    rw [hpd, List.filterMap_map, List.isEmpty_iff, List.filterMap_eq_nil_iff]
    simp [Function.comp]
  unfold load_excel_data
  rw [if_neg (by simpa using hne), if_neg (by omega)]
  dsimp only
  by_cases hk : (List.filterMap id (parsedDates s)).isEmpty = true
  · rw [if_pos hk]
    exact iff_of_true rfl (hkeq.mp hk)
  · rw [if_neg hk]
    exact iff_of_false (fun h => Except.noConfusion h) (fun hall => hk (hkeq.mpr hall))

/-- A sheet whose every date cell fails to normalize (the label text and
an unparseable string). -/
def sheetBad : Sheet :=
  ⟨12, [[PCell.str "日期", PCell.str "曝光", PCell.str "新招呼", PCell.str "交换微信",
         PCell.str "添加微信", PCell.blank, PCell.blank, PCell.str "日期",
         PCell.str "曝光", PCell.str "新招呼", PCell.str "交换微信", PCell.str "添加微信"],
        [PCell.str "N/A", PCell.num 10, PCell.num 2, PCell.num 3, PCell.num 4,
         PCell.blank, PCell.blank, PCell.str "N/A", PCell.num 20, PCell.num 5,
         PCell.num 6, PCell.num 7]]⟩

/-- C5 witnessed on `sheetBad`, whose single data row has the unparseable
date "N/A". -/
theorem C5_zero_valid_dates_error_witness :
    sheetBad.drows ≠ [] ∧ 12 ≤ sheetBad.w ∧
      isDatetimeCol (dateColumn sheetBad) = false ∧
      ((load_excel_data sheetBad
          = .error (.noDates (inferDtype (dateColumn sheetBad))
              ((dateColumn sheetBad).take 5)))
        ↔ ∀ c ∈ dateColumn sheetBad, safe_convert_date c = none) :=
  ⟨by decide, by decide, by decide,
    C5_zero_valid_dates_error sheetBad (by decide) (by decide) (by decide)⟩

/-! ### Claim C9 -/

/-- The non-absent (numeric) values of a column, in order. -/
def ratsOf (l : List PCell) : List ℚ :=
  l.filterMap (fun c => match c with | .num q => some q | _ => none)

/-- Every cell is a number or the absent marker (the shape of any metric
column the loader produces; pandas would raise on text cells, a path no
claim exercises). -/
def isNumOrBlank (l : List PCell) : Bool :=
  l.all (fun c => match c with | .num _ => true | .blank => true | _ => false)

/-- Statistics as the spec words them: mean, max, min and sum computed
over the non-absent values only; an entity with zero non-absent values
has absent mean/max/min and sum 0. -/
def specStat (l : List PCell) : StatR :=
  match ratsOf l with
  | [] => ⟨F.nan, F.nan, F.nan, F.fin 0⟩
  | x :: xs =>
      ⟨F.fin ((x :: xs).sum / ((x :: xs).length : ℚ)), F.fin (xs.foldl max x),
       F.fin (xs.foldl min x), F.fin ((x :: xs).sum)⟩

theorem nonNanF_eq (l : List PCell) (hb : isNumOrBlank l = true) :
    nonNanF l = (ratsOf l).map F.fin := by
  induction l with
  | nil => rfl
  | cons c cs ih =>
      rw [isNumOrBlank, List.all_cons, Bool.and_eq_true] at hb
      have ih' := ih hb.2
      cases c <;> simp_all [nonNanF, ratsOf, cellF]

theorem foldl_add_fin (r : List ℚ) (a : ℚ) :
    (r.map F.fin).foldl F.add (F.fin a) = F.fin (a + r.sum) := by
  induction r generalizing a with
  | nil => simp
  | cons x xs ih =>
      simp only [List.map_cons, List.foldl_cons, List.sum_cons]
      rw [show F.add (F.fin a) (F.fin x) = F.fin (a + x) from rfl, ih, add_assoc]

theorem foldl_maxv_fin (xs : List ℚ) (x : ℚ) :
    (xs.map F.fin).foldl F.maxv (F.fin x) = F.fin (xs.foldl max x) := by
  induction xs generalizing x with
  | nil => rfl
  | cons y ys ih =>
      simp only [List.map_cons, List.foldl_cons]
      rw [show F.maxv (F.fin x) (F.fin y) = F.fin (max x y) from rfl, ih]

theorem foldl_minv_fin (xs : List ℚ) (x : ℚ) :
    (xs.map F.fin).foldl F.minv (F.fin x) = F.fin (xs.foldl min x) := by
  induction xs generalizing x with
  | nil => rfl
  | cons y ys ih =>
      simp only [List.map_cons, List.foldl_cons]
      rw [show F.minv (F.fin x) (F.fin y) = F.fin (min x y) from rfl, ih]

theorem pandasSum_spec (l : List PCell) (hb : isNumOrBlank l = true) :
    pandasSum l = F.fin ((ratsOf l).sum) := by
  rw [pandasSum, nonNanF_eq l hb, foldl_add_fin, zero_add]

theorem pandasMean_spec (l : List PCell) (hb : isNumOrBlank l = true) :
    pandasMean l = if ratsOf l = [] then F.nan
      else F.fin ((ratsOf l).sum / ((ratsOf l).length : ℚ)) := by
  simp only [pandasMean, nonNanF_eq l hb]
  by_cases hr : ratsOf l = []
  · rw [if_pos hr, if_pos (by simp [hr])]
  · have hn0 : (((ratsOf l).length : ℕ) : ℚ) ≠ 0 := by
      simpa [List.length_eq_zero] using hr
    rw [if_neg hr, if_neg (by simp [hr])]
    rw [foldl_add_fin, zero_add, List.length_map]
    have hd : F.div (F.fin ((ratsOf l).sum)) (F.fin (((ratsOf l).length : ℕ) : ℚ))
        = F.fin ((ratsOf l).sum / (((ratsOf l).length : ℕ) : ℚ)) := by
      simp only [F.div]
      rw [if_neg hn0]
    exact hd

theorem pandasMax_spec (l : List PCell) (hb : isNumOrBlank l = true) :
    pandasMax l = (match ratsOf l with
      | [] => F.nan
      | x :: xs => F.fin (xs.foldl max x)) := by
  rw [pandasMax, nonNanF_eq l hb]
  cases ratsOf l with
  | nil => rfl
  | cons x xs => exact foldl_maxv_fin xs x

theorem pandasMin_spec (l : List PCell) (hb : isNumOrBlank l = true) :
    pandasMin l = (match ratsOf l with
      | [] => F.nan
      | x :: xs => F.fin (xs.foldl min x)) := by
  rw [pandasMin, nonNanF_eq l hb]
  cases ratsOf l with
  | nil => rfl
  | cons x xs => exact foldl_minv_fin xs x

/-- The implementation's per-entity statistics record coincides with the
spec-side one for every numeric-or-blank column. -/
theorem statR_eq (l : List PCell) (hb : isNumOrBlank l = true) :
    (⟨pandasMean l, pandasMax l, pandasMin l, pandasSum l⟩ : StatR) = specStat l := by
  rw [pandasMean_spec l hb, pandasMax_spec l hb, pandasMin_spec l hb,
    pandasSum_spec l hb, specStat]
  cases hr : ratsOf l with
  | nil => simp [hr]
  | cons x xs => simp [hr]

/-- C9: for a table holding the recognized metric's two columns (as every
canonically-shaped table does) whose cells are numeric or absent, the
statistics operation returns per-entity mean/max/min/sum computed over the
non-absent values only; in particular an entity with zero non-absent
values gets absent mean/max/min and sum 0 (the `[]` case of `specStat`). -/
theorem C9_statistics_skipna (df : DF) (m c1 c2 : String) (v1 v2 : List PCell)
    (hm : assocGet metric_mapping m = some (c1, c2))
    (h1 : assocGet df.cols c1 = some v1)
    (h2 : assocGet df.cols c2 = some v2)
    (hb1 : isNumOrBlank v1 = true)
    (hb2 : isNumOrBlank v2 = true) :
    calculate_statistics df m = .ok ⟨specStat v1, specStat v2⟩ := by
  rw [calculate_statistics, hm]
  simp only [colGetE, h1, h2]
  show Except.ok (⟨⟨pandasMean v1, pandasMax v1, pandasMin v1, pandasSum v1⟩,
      ⟨pandasMean v2, pandasMax v2, pandasMin v2, pandasSum v2⟩⟩ : Stats)
    = Except.ok ⟨specStat v1, specStat v2⟩
  rw [statR_eq v1 hb1, statR_eq v2 hb2]

/-- C9 witnessed on a two-row table where entity 1 has values 3 and 5
(and one absent cell) and entity 2 has no non-absent values at all. -/
theorem C9_statistics_skipna_witness :
    calculate_statistics
        ⟨[PCell.dt 45001, PCell.dt 45002, PCell.dt 45003], true,
         [("user1_exposure", [PCell.num 3, PCell.blank, PCell.num 5]),
          ("user2_exposure", [PCell.blank, PCell.blank, PCell.blank])]⟩ "曝光"
      = .ok ⟨specStat [PCell.num 3, PCell.blank, PCell.num 5],
             specStat [PCell.blank, PCell.blank, PCell.blank]⟩ :=
  C9_statistics_skipna _ "曝光" "user1_exposure" "user2_exposure" _ _
    (by decide) (by decide) (by decide) (by decide) (by decide)

/-! ### Claim C7 -/

theorem maskFilter_map_self (p : PCell → Bool) (l : List PCell) :
    maskFilter (l.map p) l = l.filter p := by
  induction l with
  | nil => rfl
  | cons c cs ih =>
      cases hp : p c <;> simp [maskFilter, List.filter_cons, hp, ih]

theorem maskFilter_map_zip (p : PCell → Bool) :
    ∀ (l₁ l₂ : List PCell), l₁.length = l₂.length →
      maskFilter (l₁.map p) l₂
        = ((l₁.zip l₂).filter (fun q => p q.1)).map Prod.snd
  | [], [], _ => rfl
  | [], _ :: _, h => by simp at h
  | _ :: _, [], h => by simp at h
  | a :: as, b :: bs, h => by
      have h2 : as.length = bs.length := by simpa using h
      cases hp : p a <;>
        simp [maskFilter, List.zip_cons_cons, List.filter_cons, hp,
          maskFilter_map_zip p as bs h2]

theorem maskFilter_true_id : ∀ (m : List Bool) (l : List PCell),
    (∀ b ∈ m, b = true) → m.length = l.length → maskFilter m l = l
  | [], [], _, _ => rfl
  | [], _ :: _, _, h => by simp at h
  | _ :: _, [], _, h => by simp at h
  | b :: bs, x :: xs, hall, h => by
      have hb : b = true := hall b (List.mem_cons_self _ _)
      subst hb
      have h2 : bs.length = xs.length := by simpa using h
      simp [maskFilter,
        maskFilter_true_id bs xs (fun c hc => hall c (List.mem_cons_of_mem _ hc)) h2]

theorem maskFilter_length_eq : ∀ (m : List Bool) (l₁ l₂ : List PCell),
    l₁.length = l₂.length → (maskFilter m l₁).length = (maskFilter m l₂).length
  | [], _, _, _ => rfl
  | _ :: _, [], [], _ => rfl
  | _ :: _, [], _ :: _, h => by simp at h
  | _ :: _, _ :: _, [], h => by simp at h
  | b :: bs, x :: xs, y :: ys, h => by
      have h2 : xs.length = ys.length := by simpa using h
      cases b <;> simp [maskFilter, maskFilter_length_eq bs xs ys h2]

theorem cellInRange_mono {sd ed sd2 ed2 : ℚ} (hs : sd2 ≤ sd) (he : ed ≤ ed2)
    {c : PCell} (h : cellInRange sd ed c = true) : cellInRange sd2 ed2 c = true := by
  cases c with
  | dt t =>
      simp only [cellInRange, decide_eq_true_eq] at h ⊢
      exact ⟨le_trans hs h.1, le_trans h.2 he⟩
  | num q => simp [cellInRange] at h
  | str s => simp [cellInRange] at h
  | posInf => simp [cellInRange] at h
  | negInf => simp [cellInRange] at h
  | blank => simp [cellInRange] at h

theorem assocGet_mem {κ α : Type} [DecidableEq κ] {l : List (κ × α)} {k : κ} {v : α}
    (h : assocGet l k = some v) : (k, v) ∈ l := by
  induction l with
  | nil => exact Option.noConfusion h
  | cons p ps ih =>
      obtain ⟨p1, p2⟩ := p
      by_cases hp : p1 = k
      · subst hp
        have h2 : assocGet ((p1, p2) :: ps) p1 = some p2 := by
          simp [assocGet]
        rw [h2] at h
        injection h with h3
        subst h3
        exact List.mem_cons_self _ _
      · have h2 : assocGet ((p1, p2) :: ps) k = assocGet ps k := by
          simp [assocGet, hp]
        rw [h2] at h
        exact List.mem_cons_of_mem _ (ih h)

theorem map_pair_eq_self {l : List (String × List PCell)}
    {f : List PCell → List PCell} (h : ∀ p ∈ l, f p.2 = p.2) :
    l.map (fun p => (p.1, f p.2)) = l := by
  induction l with
  | nil => rfl
  | cons p ps ih =>
      simp only [List.map_cons]
      rw [h p (List.mem_cons_self _ _), ih (fun q hq => h q (List.mem_cons_of_mem _ hq))]

theorem filterPure_eq_self (g : DF) (sd2 ed2 : ℚ)
    (hall : ∀ c ∈ g.dates, cellInRange sd2 ed2 c = true)
    (hwf : ∀ p ∈ g.cols, p.2.length = g.dates.length) :
    filterPure g sd2 ed2 = g := by
  obtain ⟨d, b, cl⟩ := g
  simp only [filterPure]
  have hd : maskFilter (d.map (cellInRange sd2 ed2)) d = d := by
    rw [maskFilter_map_self, List.filter_eq_self.mpr hall]
  simp only [DF.mk.injEq]
  refine ⟨hd, trivial, ?_⟩
  apply map_pair_eq_self
  intro p hp
  apply maskFilter_true_id
  · intro bb hbb
    rcases List.mem_map.mp hbb with ⟨c, hc, rfl⟩
    exact hall c hc
  · rw [List.length_map]
    exact (hwf p hp).symm

theorem filterPure_wf (df : DF) (sd ed : ℚ)
    (hwf : ∀ p ∈ df.cols, p.2.length = df.dates.length) :
    ∀ p ∈ (filterPure df sd ed).cols,
      p.2.length = (filterPure df sd ed).dates.length := by
  intro p hp
  simp only [filterPure] at hp ⊢
  rcases List.mem_map.mp hp with ⟨q, hq, rfl⟩
  exact maskFilter_length_eq _ _ _ (hwf q hq)

/-- C7: on a well-formed datetime-typed table, the range filter (a) never
raises — it returns a plain (possibly empty) result; (b) its date column
is exactly the dates inside the inclusive range, in order; (c) each named
column keeps exactly the entries of the rows whose date is in range, in
order; and (d) it is idempotent: re-filtering the filtered table with any
superset range returns the very same table. -/
theorem C7_range_filter (df : DF) (sd ed sd2 ed2 : ℚ)
    (hdt : df.dateIsDatetime = true)
    (hwf : ∀ p ∈ df.cols, p.2.length = df.dates.length)
    (hs : sd2 ≤ sd) (he : ed ≤ ed2) :
    (filter_by_date_range df sd ed).1 = .ok (filterPure df sd ed) ∧
    (filterPure df sd ed).dates = df.dates.filter (cellInRange sd ed) ∧
    (∀ n c, assocGet df.cols n = some c →
      assocGet (filterPure df sd ed).cols n
        = some (((df.dates.zip c).filter (fun q => cellInRange sd ed q.1)).map Prod.snd)) ∧
    (filter_by_date_range (filterPure df sd ed) sd2 ed2).1 = .ok (filterPure df sd ed) := by
  have hok : (filter_by_date_range df sd ed).1 = .ok (filterPure df sd ed) := by
    simp [filter_by_date_range, coerceDF, hdt]
  have hdates : (filterPure df sd ed).dates = df.dates.filter (cellInRange sd ed) := by
    simp only [filterPure]
    exact maskFilter_map_self _ _
  refine ⟨hok, hdates, ?_, ?_⟩
  · intro n c hc
    have hlen : df.dates.length = c.length := by
      have := hwf (n, c) (assocGet_mem hc)
      simpa using this.symm
    simp only [filterPure]
    rw [assocGet_mapVal (fun col => maskFilter (df.dates.map (cellInRange sd ed)) col), hc]
    dsimp only [Option.map]
    rw [maskFilter_map_zip (cellInRange sd ed) df.dates c hlen]
  · have hfp_dt : (filterPure df sd ed).dateIsDatetime = true := by
      simp only [filterPure]; exact hdt
    have hall : ∀ c ∈ (filterPure df sd ed).dates, cellInRange sd2 ed2 c = true := by
      intro c hc
      rw [hdates] at hc
      exact cellInRange_mono hs he (List.of_mem_filter hc)
    have hwf2 := filterPure_wf df sd ed hwf
    simp only [filter_by_date_range, coerceDF, hfp_dt, if_pos]
    rw [filterPure_eq_self _ sd2 ed2 hall hwf2]

/-- C7 witnessed on a one-row table, re-filtered with a superset range. -/
theorem C7_range_filter_witness :
    (⟨[PCell.dt 45050], true, [("user1_add", [PCell.num 2])]⟩ : DF).dateIsDatetime = true ∧
    (44000 : ℚ) ≤ 45000 ∧ (45100 : ℚ) ≤ 46000 ∧
    (filter_by_date_range
        (filterPure ⟨[PCell.dt 45050], true, [("user1_add", [PCell.num 2])]⟩ 45000 45100)
        44000 46000).1
      = .ok (filterPure ⟨[PCell.dt 45050], true, [("user1_add", [PCell.num 2])]⟩ 45000 45100) :=
  ⟨rfl, by norm_num, by norm_num,
    (C7_range_filter _ 45000 45100 44000 46000 rfl (by decide)
      (by norm_num) (by norm_num)).2.2.2⟩

/-! ### Claim C6 -/

/-- A 13-column sheet whose column 1 bears the unrecognized label "foo"
(column 1's data is 77). -/
def sheetFoo : Sheet :=
  ⟨13, [[PCell.str "日期", PCell.str "foo", PCell.str "新招呼", PCell.str "补刀次数",
         PCell.str "交换微信", PCell.str "添加微信", PCell.blank, PCell.str "日期",
         PCell.str "曝光", PCell.str "新招呼", PCell.str "补刀次数", PCell.str "交换微信",
         PCell.str "添加微信"],
        [PCell.num 45001, PCell.num 77, PCell.num 2, PCell.num 3, PCell.num 4,
         PCell.num 5, PCell.blank, PCell.num 45001, PCell.num 21, PCell.num 22,
         PCell.num 23, PCell.num 24, PCell.num 25]]⟩

/-- C6 counterexample: the claim says every column whose label matches
none of the five recognized labels is left unmapped.  But `column_mapping`
pre-maps columns 1 and 2 to `user1_exposure` and `user1_greet`
unconditionally: on `sheetFoo`, whose column 1 carries the unrecognized
label "foo", the loaded table's `user1_exposure` column is column 1's
data (77) — the unmatched column was mapped, not dropped. -/
theorem C6_counterexample_unmatched_column_mapped :
    (load_excel_data sheetFoo).toOption.map
        (fun df => assocGet df.cols "user1_exposure")
      = some (some [PCell.num 77]) ∧
    matchLabel1 (labelAt sheetFoo 1) = none := by
  exact ⟨by decide, by decide⟩

/-- The five recognized labels, in the matchers' order. -/
def fiveLabels : List String := ["曝光", "新招呼", "补刀次数", "交换微信", "添加微信"]

/-- The k-th recognized label. -/
def labelOf : Fin 5 → String
  | 0 => "曝光"
  | 1 => "新招呼"
  | 2 => "补刀次数"
  | 3 => "交换微信"
  | 4 => "添加微信"

/-- The entity-1 canonical field name of the k-th label. -/
def u1name : Fin 5 → String
  | 0 => "user1_exposure"
  | 1 => "user1_greet"
  | 2 => "user1_kill"
  | 3 => "user1_exchange"
  | 4 => "user1_add"

/-- The entity-2 canonical field name of the k-th label. -/
def u2name : Fin 5 → String
  | 0 => "user2_exposure"
  | 1 => "user2_greet"
  | 2 => "user2_kill"
  | 3 => "user2_exchange"
  | 4 => "user2_add"

/-- The canonical name column `i` would be given by the entity-1 scan. -/
def nm1 (s : Sheet) (i : ℕ) : String := (matchLabel1 (labelAt s i)).getD ""

/-- The canonical name column `i` would be given by the entity-2 scan. -/
def nm2 (s : Sheet) (i : ℕ) : String := (matchLabel2 (labelAt s i)).getD ""

theorem matchLabel1_labelOf (k : Fin 5) : matchLabel1 (labelOf k) = some (u1name k) := by
  fin_cases k <;> decide

theorem matchLabel2_labelOf (k : Fin 5) : matchLabel2 (labelOf k) = some (u2name k) := by
  fin_cases k <;> decide

theorem labelOf_inj {a b : Fin 5} (h : labelOf a = labelOf b) : a = b := by
  fin_cases a <;> fin_cases b <;> first | rfl | (exact absurd h (by decide))

theorem u1name_inj {a b : Fin 5} (h : u1name a = u1name b) : a = b := by
  fin_cases a <;> fin_cases b <;> first | rfl | (exact absurd h (by decide))

theorem u2name_inj {a b : Fin 5} (h : u2name a = u2name b) : a = b := by
  fin_cases a <;> fin_cases b <;> first | rfl | (exact absurd h (by decide))

theorem u1name_ne_u2name (a b : Fin 5) : u1name a ≠ u2name b := by
  fin_cases a <;> fin_cases b <;> decide

theorem filterMap_eq_map_of_some {α β : Type} (f : α → Option β) (g : α → β)
    (l : List α) (h : ∀ a ∈ l, f a = some (g a)) : l.filterMap f = l.map g := by
  induction l with
  | nil => rfl
  | cons a as ih =>
      rw [List.filterMap_cons, h a (List.mem_cons_self _ _), List.map_cons,
        ih (fun b hb => h b (List.mem_cons_of_mem _ hb))]

theorem user1_cols_char (s : Sheet) (hw : s.w = 13)
    (hm : ∀ i ∈ rangeN 1 6, (matchLabel1 (labelAt s i)).isSome = true) :
    user1_cols s = (rangeN 1 6).map (fun i => (i, nm1 s i)) := by
  rw [user1_cols, hw]
  rw [show min 6 13 = 6 from rfl]
  apply filterMap_eq_map_of_some
  intro i hi
  rcases Option.isSome_iff_exists.mp (hm i hi) with ⟨n, hn⟩
  rw [hn, nm1, hn]
  rfl

theorem user2_cols_char (s : Sheet) (hw : s.w = 13)
    (hm : ∀ i ∈ rangeN 8 13, (matchLabel2 (labelAt s i)).isSome = true) :
    user2_cols s = (rangeN 8 13).map (fun i => (i, nm2 s i)) := by
  rw [user2_cols, hw]
  rw [show min 13 13 = 13 from rfl]
  apply filterMap_eq_map_of_some
  intro i hi
  rcases Option.isSome_iff_exists.mp (hm i hi) with ⟨n, hn⟩
  rw [hn, nm2, hn]
  rfl

theorem column_mapping_char (s : Sheet) (hw : s.w = 13)
    (hm1 : ∀ i ∈ rangeN 1 6, (matchLabel1 (labelAt s i)).isSome = true)
    (hm2 : ∀ i ∈ rangeN 8 13, (matchLabel2 (labelAt s i)).isSome = true) :
    column_mapping s
      = [(1, nm1 s 1), (2, nm1 s 2), (3, nm1 s 3), (4, nm1 s 4), (5, nm1 s 5),
         (8, nm2 s 8), (9, nm2 s 9), (10, nm2 s 10), (11, nm2 s 11), (12, nm2 s 12)] := by
  rw [column_mapping, user1_cols_char s hw hm1, user2_cols_char s hw hm2, hw]
  rfl

theorem lastWrite_append {κ α : Type} [DecidableEq κ] (k : κ) (l₁ l₂ : List (κ × α)) :
    lastWrite k (l₁ ++ l₂)
      = match lastWrite k l₂ with
        | some v => some v
        | none => lastWrite k l₁ := by
  induction l₁ with
  | nil =>
      simp only [List.nil_append]
      cases lastWrite k l₂ <;> simp [lastWrite]
  | cons p ps ih =>
      simp only [List.cons_append, lastWrite, List.append_eq]
      rw [ih]
      cases lastWrite k l₂ <;> cases lastWrite k ps <;> simp [lastWrite]

/-- The effective (name, data) write sequence that builds `new_df`'s
metric columns on a fully-labelled 13-column sheet. -/
def writesOf (s : Sheet) : List (String × List PCell) :=
  ([1, 2, 3, 4, 5].map (fun i => (nm1 s i, colData s i)))
    ++ ([8, 9, 10, 11, 12].map (fun i => (nm2 s i, colData s i)))

theorem assocGet_fold_set2 {κ α β : Type} [DecidableEq κ]
    (key : β → κ) (val : β → α) (writes : List β) (init : List (κ × α)) (k : κ) :
    assocGet (writes.foldl (fun a b => assocSet a (key b) (val b)) init) k
      = match lastWrite k (writes.map (fun b => (key b, val b))) with
        | some v => some v
        | none => assocGet init k := by
  induction writes generalizing init with
  | nil => simp [lastWrite]
  | cons w ws ih =>
      simp only [List.foldl_cons, List.map_cons, lastWrite]
      rw [ih]
      cases lastWrite k (ws.map fun b => (key b, val b)) with
      | some v => simp
      | none =>
          simp only [assocGet_set]
          by_cases h : key w = k <;> simp [h]

theorem new_cols_as_lastWrite (s : Sheet) (hw : s.w = 13)
    (hm1 : ∀ i ∈ rangeN 1 6, (matchLabel1 (labelAt s i)).isSome = true)
    (hm2 : ∀ i ∈ rangeN 8 13, (matchLabel2 (labelAt s i)).isSome = true)
    (n : String) :
    assocGet (new_cols s) n = lastWrite n (writesOf s) := by
  rw [new_cols, column_mapping_char s hw hm1 hm2, hw]
  have hguard : List.foldl
        (fun a p => if p.1 < 13 then assocSet a p.2 (colData s p.1) else a) []
        [(1, nm1 s 1), (2, nm1 s 2), (3, nm1 s 3), (4, nm1 s 4), (5, nm1 s 5),
         (8, nm2 s 8), (9, nm2 s 9), (10, nm2 s 10), (11, nm2 s 11), (12, nm2 s 12)]
      = List.foldl (fun a p => assocSet a p.2 (colData s p.1)) []
        [(1, nm1 s 1), (2, nm1 s 2), (3, nm1 s 3), (4, nm1 s 4), (5, nm1 s 5),
         (8, nm2 s 8), (9, nm2 s 9), (10, nm2 s 10), (11, nm2 s 11), (12, nm2 s 12)] := rfl
  rw [hguard]
  have h2 := assocGet_fold_set2 (fun p : ℕ × String => p.2)
    (fun p : ℕ × String => colData s p.1)
    [(1, nm1 s 1), (2, nm1 s 2), (3, nm1 s 3), (4, nm1 s 4), (5, nm1 s 5),
     (8, nm2 s 8), (9, nm2 s 9), (10, nm2 s 10), (11, nm2 s 11), (12, nm2 s 12)]
    [] n
  rw [h2]
  have hX : [(1, nm1 s 1), (2, nm1 s 2), (3, nm1 s 3), (4, nm1 s 4), (5, nm1 s 5),
        (8, nm2 s 8), (9, nm2 s 9), (10, nm2 s 10), (11, nm2 s 11), (12, nm2 s 12)].map
        (fun p : ℕ × String => ((fun p : ℕ × String => p.2) p,
          (fun p : ℕ × String => colData s p.1) p))
      = writesOf s := rfl
  rw [hX]
  cases lastWrite n (writesOf s) <;> rfl

theorem mem_block1 {i : ℕ} (hi : i ∈ ([1, 2, 3, 4, 5] : List ℕ)) :
    ∃ j : Fin 5, i = 1 + (j : ℕ) := by
  simp only [List.mem_cons, List.not_mem_nil, or_false] at hi
  rcases hi with h | h | h | h | h <;> subst h
  · exact ⟨0, rfl⟩
  · exact ⟨1, rfl⟩
  · exact ⟨2, rfl⟩
  · exact ⟨3, rfl⟩
  · exact ⟨4, rfl⟩

theorem mem_block2 {i : ℕ} (hi : i ∈ ([8, 9, 10, 11, 12] : List ℕ)) :
    ∃ j : Fin 5, i = 8 + (j : ℕ) := by
  simp only [List.mem_cons, List.not_mem_nil, or_false] at hi
  rcases hi with h | h | h | h | h <;> subst h
  · exact ⟨0, rfl⟩
  · exact ⟨1, rfl⟩
  · exact ⟨2, rfl⟩
  · exact ⟨3, rfl⟩
  · exact ⟨4, rfl⟩

theorem mem15 (v : Fin 5) : 1 + (v : ℕ) ∈ ([1, 2, 3, 4, 5] : List ℕ) := by
  fin_cases v <;> decide

theorem mem812 (v : Fin 5) : 8 + (v : ℕ) ∈ ([8, 9, 10, 11, 12] : List ℕ) := by
  fin_cases v <;> decide

theorem nm1_at (s : Sheet) {σ₁ : Fin 5 → Fin 5}
    (hl1 : ∀ k : Fin 5, labelAt s (1 + (σ₁ k : ℕ)) = labelOf k) (k : Fin 5) :
    nm1 s (1 + (σ₁ k : ℕ)) = u1name k := by
  rw [nm1, hl1 k, matchLabel1_labelOf]
  rfl

theorem nm2_at (s : Sheet) {σ₂ : Fin 5 → Fin 5}
    (hl2 : ∀ k : Fin 5, labelAt s (8 + (σ₂ k : ℕ)) = labelOf k) (k : Fin 5) :
    nm2 s (8 + (σ₂ k : ℕ)) = u2name k := by
  rw [nm2, hl2 k, matchLabel2_labelOf]
  rfl

theorem hm1_of (s : Sheet) {σ₁ : Fin 5 → Fin 5} (hσ₁ : Function.Bijective σ₁)
    (hl1 : ∀ k : Fin 5, labelAt s (1 + (σ₁ k : ℕ)) = labelOf k) :
    ∀ i ∈ rangeN 1 6, (matchLabel1 (labelAt s i)).isSome = true := by
  intro i hi
  rw [show rangeN 1 6 = [1, 2, 3, 4, 5] from rfl] at hi
  obtain ⟨j, rfl⟩ := mem_block1 hi
  obtain ⟨k, rfl⟩ := hσ₁.2 j
  rw [hl1 k, matchLabel1_labelOf]
  rfl

theorem hm2_of (s : Sheet) {σ₂ : Fin 5 → Fin 5} (hσ₂ : Function.Bijective σ₂)
    (hl2 : ∀ k : Fin 5, labelAt s (8 + (σ₂ k : ℕ)) = labelOf k) :
    ∀ i ∈ rangeN 8 13, (matchLabel2 (labelAt s i)).isSome = true := by
  intro i hi
  rw [show rangeN 8 13 = [8, 9, 10, 11, 12] from rfl] at hi
  obtain ⟨j, rfl⟩ := mem_block2 hi
  obtain ⟨k, rfl⟩ := hσ₂.2 j
  rw [hl2 k, matchLabel2_labelOf]
  rfl

theorem nm1_unique (s : Sheet) {σ₁ : Fin 5 → Fin 5} (hσ₁ : Function.Bijective σ₁)
    (hl1 : ∀ k : Fin 5, labelAt s (1 + (σ₁ k : ℕ)) = labelOf k) (k : Fin 5) :
    ∀ i ∈ ([1, 2, 3, 4, 5] : List ℕ), (nm1 s i = u1name k ↔ i = 1 + (σ₁ k : ℕ)) := by
  intro i hi
  obtain ⟨j, rfl⟩ := mem_block1 hi
  obtain ⟨k2, rfl⟩ := hσ₁.2 j
  constructor
  · intro h
    rw [nm1_at s hl1 k2] at h
    rw [u1name_inj h]
  · intro h
    have hval : (σ₁ k2 : ℕ) = (σ₁ k : ℕ) := by omega
    have : k2 = k := hσ₁.1 (Fin.ext hval)
    rw [this, nm1_at s hl1 k]

theorem nm2_unique (s : Sheet) {σ₂ : Fin 5 → Fin 5} (hσ₂ : Function.Bijective σ₂)
    (hl2 : ∀ k : Fin 5, labelAt s (8 + (σ₂ k : ℕ)) = labelOf k) (k : Fin 5) :
    ∀ i ∈ ([8, 9, 10, 11, 12] : List ℕ), (nm2 s i = u2name k ↔ i = 8 + (σ₂ k : ℕ)) := by
  intro i hi
  obtain ⟨j, rfl⟩ := mem_block2 hi
  obtain ⟨k2, rfl⟩ := hσ₂.2 j
  constructor
  · intro h
    rw [nm2_at s hl2 k2] at h
    rw [u2name_inj h]
  · intro h
    have hval : (σ₂ k2 : ℕ) = (σ₂ k : ℕ) := by omega
    have : k2 = k := hσ₂.1 (Fin.ext hval)
    rw [this, nm2_at s hl2 k]

theorem new_cols_u1_lookup (s : Sheet) (hw : s.w = 13)
    {σ₁ σ₂ : Fin 5 → Fin 5}
    (hσ₁ : Function.Bijective σ₁) (hσ₂ : Function.Bijective σ₂)
    (hl1 : ∀ k : Fin 5, labelAt s (1 + (σ₁ k : ℕ)) = labelOf k)
    (hl2 : ∀ k : Fin 5, labelAt s (8 + (σ₂ k : ℕ)) = labelOf k)
    (k : Fin 5) :
    assocGet (new_cols s) (u1name k) = some (colData s (1 + (σ₁ k : ℕ))) := by
  rw [new_cols_as_lastWrite s hw (hm1_of s hσ₁ hl1) (hm2_of s hσ₂ hl2), writesOf,
    lastWrite_append]
  have h2 : lastWrite (u1name k)
      (([8, 9, 10, 11, 12] : List ℕ).map (fun i => (nm2 s i, colData s i))) = none := by
    apply lastWrite_map_none
    intro i hi
    obtain ⟨j, rfl⟩ := mem_block2 hi
    obtain ⟨k2, rfl⟩ := hσ₂.2 j
    rw [nm2_at s hl2 k2]
    exact (u1name_ne_u2name k k2).symm
  rw [h2]
  exact lastWrite_map_unique [1, 2, 3, 4, 5] (nm1 s) (colData s) (u1name k)
    (1 + (σ₁ k : ℕ)) (mem15 (σ₁ k)) (nm1_unique s hσ₁ hl1 k)

theorem new_cols_u2_lookup (s : Sheet) (hw : s.w = 13)
    {σ₁ σ₂ : Fin 5 → Fin 5}
    (hσ₁ : Function.Bijective σ₁) (hσ₂ : Function.Bijective σ₂)
    (hl1 : ∀ k : Fin 5, labelAt s (1 + (σ₁ k : ℕ)) = labelOf k)
    (hl2 : ∀ k : Fin 5, labelAt s (8 + (σ₂ k : ℕ)) = labelOf k)
    (k : Fin 5) :
    assocGet (new_cols s) (u2name k) = some (colData s (8 + (σ₂ k : ℕ))) := by
  rw [new_cols_as_lastWrite s hw (hm1_of s hσ₁ hl1) (hm2_of s hσ₂ hl2), writesOf,
    lastWrite_append]
  have h2 : lastWrite (u2name k)
      (([8, 9, 10, 11, 12] : List ℕ).map (fun i => (nm2 s i, colData s i)))
      = some (colData s (8 + (σ₂ k : ℕ))) :=
    lastWrite_map_unique [8, 9, 10, 11, 12] (nm2 s) (colData s) (u2name k)
      (8 + (σ₂ k : ℕ)) (mem812 (σ₂ k)) (nm2_unique s hσ₂ hl2 k)
  rw [h2]

theorem new_cols_other_lookup (s : Sheet) (hw : s.w = 13)
    {σ₁ σ₂ : Fin 5 → Fin 5}
    (hσ₁ : Function.Bijective σ₁) (hσ₂ : Function.Bijective σ₂)
    (hl1 : ∀ k : Fin 5, labelAt s (1 + (σ₁ k : ℕ)) = labelOf k)
    (hl2 : ∀ k : Fin 5, labelAt s (8 + (σ₂ k : ℕ)) = labelOf k)
    (n : String) (hn1 : ∀ k : Fin 5, n ≠ u1name k) (hn2 : ∀ k : Fin 5, n ≠ u2name k) :
    assocGet (new_cols s) n = none := by
  rw [new_cols_as_lastWrite s hw (hm1_of s hσ₁ hl1) (hm2_of s hσ₂ hl2), writesOf,
    lastWrite_append]
  have h2 : lastWrite n
      (([8, 9, 10, 11, 12] : List ℕ).map (fun i => (nm2 s i, colData s i))) = none := by
    apply lastWrite_map_none
    intro i hi
    obtain ⟨j, rfl⟩ := mem_block2 hi
    obtain ⟨k2, rfl⟩ := hσ₂.2 j
    rw [nm2_at s hl2 k2]
    exact fun h => hn2 k2 h.symm
  have h1 : lastWrite n
      (([1, 2, 3, 4, 5] : List ℕ).map (fun i => (nm1 s i, colData s i))) = none := by
    apply lastWrite_map_none
    intro i hi
    obtain ⟨j, rfl⟩ := mem_block1 hi
    obtain ⟨k2, rfl⟩ := hσ₁.2 j
    rw [nm1_at s hl1 k2]
    exact fun h => hn1 k2 h.symm
  rw [h2, h1]

/-- The column permutation of the whole sheet induced by permuting
positions 1-5 by `π₁` and positions 8-12 by `π₂` (0-based within each
block); every other column stays put. -/
def permIdx (π₁ π₂ : Fin 5 → Fin 5) (i : ℕ) : ℕ :=
  if h1 : 1 ≤ i ∧ i ≤ 5 then 1 + (π₁ ⟨i - 1, by omega⟩ : Fin 5).val
  else if h2 : 8 ≤ i ∧ i ≤ 12 then 8 + (π₂ ⟨i - 8, by omega⟩ : Fin 5).val
  else i

/-- The sheet with columns 1-5 permuted by `π₁` and 8-12 by `π₂`, labels
and data moving together; rows are materialised at the sheet's width
(pandas pads short rows with NaN anyway). -/
def permuteSheet (π₁ π₂ : Fin 5 → Fin 5) (s : Sheet) : Sheet :=
  ⟨s.w, s.drows.map (fun r =>
    (List.range s.w).map (fun i => r.getD (permIdx π₁ π₂ i) PCell.blank))⟩

theorem permIdx_zero (π₁ π₂ : Fin 5 → Fin 5) : permIdx π₁ π₂ 0 = 0 := by
  rw [permIdx, dif_neg (by omega), dif_neg (by omega)]

theorem permIdx_block1 (π₁ π₂ : Fin 5 → Fin 5) (j : Fin 5) :
    permIdx π₁ π₂ (1 + (j : ℕ)) = 1 + (π₁ j : ℕ) := by
  have h5 : (j : ℕ) < 5 := j.isLt
  rw [permIdx, dif_pos (by omega : 1 ≤ 1 + (j : ℕ) ∧ 1 + (j : ℕ) ≤ 5)]
  have hj : (⟨1 + (j : ℕ) - 1, by omega⟩ : Fin 5) = j := by
    apply Fin.ext
    simp
  rw [hj]

theorem permIdx_block2 (π₁ π₂ : Fin 5 → Fin 5) (j : Fin 5) :
    permIdx π₁ π₂ (8 + (j : ℕ)) = 8 + (π₂ j : ℕ) := by
  have h5 : (j : ℕ) < 5 := j.isLt
  rw [permIdx, dif_neg (by omega), dif_pos (by omega : 8 ≤ 8 + (j : ℕ) ∧ 8 + (j : ℕ) ≤ 12)]
  have hj : (⟨8 + (j : ℕ) - 8, by omega⟩ : Fin 5) = j := by
    apply Fin.ext
    simp
  rw [hj]

theorem getD_range_map {α : Type} (f : ℕ → α) (n i : ℕ) (d : α) (h : i < n) :
    ((List.range n).map f).getD i d = f i := by
  rw [List.getD_eq_getElem?_getD, List.getElem?_map, List.getElem?_range h]
  rfl

theorem colData_permute (π₁ π₂ : Fin 5 → Fin 5) (s : Sheet) {i : ℕ} (hi : i < s.w) :
    colData (permuteSheet π₁ π₂ s) i = colData s (permIdx π₁ π₂ i) := by
  rw [colData, colData, permuteSheet]
  rw [List.map_map]
  apply List.map_congr_left
  intro r hr
  exact getD_range_map _ _ _ _ hi

theorem dateColumn_as_colData (s : Sheet) : dateColumn s = colData s 0 := rfl

theorem dateColumn_permute (π₁ π₂ : Fin 5 → Fin 5) (s : Sheet) (hw : 0 < s.w) :
    dateColumn (permuteSheet π₁ π₂ s) = dateColumn s := by
  rw [dateColumn_as_colData, dateColumn_as_colData,
    colData_permute π₁ π₂ s hw, permIdx_zero]

theorem labelAt_permute (π₁ π₂ : Fin 5 → Fin 5) (s : Sheet) (hne : s.drows ≠ [])
    {i : ℕ} (hi : i < s.w) :
    labelAt (permuteSheet π₁ π₂ s) i = labelAt s (permIdx π₁ π₂ i) := by
  obtain ⟨r0, rest, hr⟩ := List.exists_cons_of_ne_nil hne
  have hcell : ((permuteSheet π₁ π₂ s).drows.headD []).getD i PCell.blank
      = (s.drows.headD []).getD (permIdx π₁ π₂ i) PCell.blank := by
    rw [permuteSheet]
    rw [hr]
    rw [List.map_cons, List.headD_cons, List.headD_cons]
    exact getD_range_map _ _ _ _ hi
  rw [labelAt, labelAt, hcell]

/-- The table `load_excel_data` returns on its success path. -/
def loadedDF (s : Sheet) : DF :=
  { dates := applyPerm (sortPerm ((parsedDates s).filterMap id))
      (((parsedDates s).filterMap id).map PCell.dt)
    dateIsDatetime := true
    cols := (new_cols s).map (fun p =>
      (p.1, applyPerm (sortPerm ((parsedDates s).filterMap id))
        (maskFilter ((parsedDates s).map Option.isSome) p.2))) }

theorem load_ok_form (s : Sheet) (hA : ¬ s.drows.isEmpty = true)
    (hw12 : ¬ s.w < 12) (hk : ¬ (List.filterMap id (parsedDates s)).isEmpty = true) :
    load_excel_data s = .ok (loadedDF s) := by
  rw [load_excel_data, if_neg hA, if_neg hw12]
  dsimp only
  rw [if_neg hk]
  rfl

/-- Two sheets with the same width, the same date column, the same
emptiness, and extensionally equal canonical columns load to results with
extensionally equal columns and equal dates (also agreeing on every
ingestion error). -/
theorem load_lookup_eq (sA sB : Sheet)
    (hww : sA.w = sB.w)
    (hdc : dateColumn sA = dateColumn sB)
    (hemp : (sA.drows.isEmpty = true) ↔ (sB.drows.isEmpty = true))
    (hcols : ∀ n, assocGet (new_cols sA) n = assocGet (new_cols sB) n) :
    (∀ n, Except.map (fun df => assocGet df.cols n) (load_excel_data sA)
        = Except.map (fun df => assocGet df.cols n) (load_excel_data sB)) ∧
    Except.map DF.dates (load_excel_data sA)
      = Except.map DF.dates (load_excel_data sB) := by
  have hpd : parsedDates sA = parsedDates sB := by
    rw [parsedDates, parsedDates, hdc]
  by_cases hA : sA.drows.isEmpty = true
  · have h1 : load_excel_data sA = .error .emptyFile := by
      rw [load_excel_data, if_pos hA]
    have h2 : load_excel_data sB = .error .emptyFile := by
      rw [load_excel_data, if_pos (hemp.mp hA)]
    rw [h1, h2]
    exact ⟨fun n => rfl, rfl⟩
  · have hB : ¬ sB.drows.isEmpty = true := fun h => hA (hemp.mpr h)
    by_cases hw12 : sA.w < 12
    · have h1 : load_excel_data sA = .error (.tooFewCols sA.w) := by
        rw [load_excel_data, if_neg hA, if_pos hw12]
      have h2 : load_excel_data sB = .error (.tooFewCols sB.w) := by
        rw [load_excel_data, if_neg hB, if_pos (hww ▸ hw12)]
      rw [h1, h2, hww]
      exact ⟨fun n => rfl, rfl⟩
    · by_cases hk : (List.filterMap id (parsedDates sA)).isEmpty = true
      · have h1 : load_excel_data sA
            = .error (.noDates (inferDtype (dateColumn sA)) ((dateColumn sA).take 5)) := by
          rw [load_excel_data, if_neg hA, if_neg hw12]
          dsimp only
          rw [if_pos hk]
        have h2 : load_excel_data sB
            = .error (.noDates (inferDtype (dateColumn sB)) ((dateColumn sB).take 5)) := by
          rw [load_excel_data, if_neg hB, if_neg (hww ▸ hw12)]
          dsimp only
          rw [if_pos (by rw [← hpd]; exact hk)]
        rw [h1, h2, hdc]
        exact ⟨fun n => rfl, rfl⟩
      · have h1 : load_excel_data sA = .ok (loadedDF sA) :=
          load_ok_form sA hA hw12 hk
        have h2 : load_excel_data sB = .ok (loadedDF sB) :=
          load_ok_form sB hB (hww ▸ hw12) (by rw [← hpd]; exact hk)
        rw [h1, h2]
        constructor
        · intro n
          show Except.ok (assocGet (loadedDF sA).cols n)
            = Except.ok (assocGet (loadedDF sB).cols n)
          rw [loadedDF, loadedDF]
          dsimp only
          rw [assocGet_mapVal
              (fun c => applyPerm (sortPerm ((parsedDates sA).filterMap id))
                (maskFilter ((parsedDates sA).map Option.isSome) c)),
            assocGet_mapVal
              (fun c => applyPerm (sortPerm ((parsedDates sB).filterMap id))
                (maskFilter ((parsedDates sB).map Option.isSome) c))]
          rw [hcols n, hpd]
        · show Except.ok (loadedDF sA).dates = Except.ok (loadedDF sB).dates
          rw [loadedDF, loadedDF]
          dsimp only
          rw [hpd]

/-- C6 amended: the Header Resolver's label-driven mapping is
order-independent PROVIDED each block carries the five recognized labels
(in some order, given by the bijections `σ₁`, `σ₂`): permuting columns 1-5
among themselves (by any bijection `π₁`) and columns 8-12 among themselves
(by `π₂`) — labels and data moving together — loads to a table with
extensionally identical canonical columns and identical dates (and the
identical ingestion error, if any).  The original claim's second half
fails: a column whose label matches nothing is NOT always left unmapped,
because columns 1 and 2 are unconditionally pre-mapped to
`user1_exposure`/`user1_greet` (see the counterexample). -/
theorem C6_amended_permutation_invariance
    (s : Sheet) (π₁ π₂ σ₁ σ₂ : Fin 5 → Fin 5)
    (hw : s.w = 13)
    (hπ₁ : Function.Bijective π₁) (hπ₂ : Function.Bijective π₂)
    (hσ₁ : Function.Bijective σ₁) (hσ₂ : Function.Bijective σ₂)
    (hl1 : ∀ k : Fin 5, labelAt s (1 + (σ₁ k : ℕ)) = labelOf k)
    (hl2 : ∀ k : Fin 5, labelAt s (8 + (σ₂ k : ℕ)) = labelOf k) :
    (∀ n, Except.map (fun df => assocGet df.cols n)
        (load_excel_data (permuteSheet π₁ π₂ s))
      = Except.map (fun df => assocGet df.cols n) (load_excel_data s)) ∧
    Except.map DF.dates (load_excel_data (permuteSheet π₁ π₂ s))
      = Except.map DF.dates (load_excel_data s) := by
  have hne : s.drows ≠ [] := by
    intro hemp
    have h := hl1 0
    rw [labelAt, hemp] at h
    have h2 : ("" : String) = labelOf 0 := h
    exact absurd h2 (by decide)
  have hw' : (permuteSheet π₁ π₂ s).w = 13 := hw
  set inv1 := Function.surjInv hπ₁.2 with hinv1
  have hπinv1 : ∀ b, π₁ (inv1 b) = b := fun b => Function.surjInv_eq hπ₁.2 b
  set σ₁' := fun k => inv1 (σ₁ k) with hσ₁'def
  have hπσ₁ : ∀ k, π₁ (σ₁' k) = σ₁ k := fun k => hπinv1 (σ₁ k)
  have hσ₁'bij : Function.Bijective σ₁' := by
    constructor
    · intro a b hab
      apply hσ₁.1
      have h := congrArg π₁ hab
      rwa [hπσ₁, hπσ₁] at h
    · intro j
      obtain ⟨k, hk⟩ := hσ₁.2 (π₁ j)
      refine ⟨k, ?_⟩
      apply hπ₁.1
      rw [hπσ₁, hk]
  set inv2 := Function.surjInv hπ₂.2 with hinv2
  have hπinv2 : ∀ b, π₂ (inv2 b) = b := fun b => Function.surjInv_eq hπ₂.2 b
  set σ₂' := fun k => inv2 (σ₂ k) with hσ₂'def
  have hπσ₂ : ∀ k, π₂ (σ₂' k) = σ₂ k := fun k => hπinv2 (σ₂ k)
  have hσ₂'bij : Function.Bijective σ₂' := by
    constructor
    · intro a b hab
      apply hσ₂.1
      have h := congrArg π₂ hab
      rwa [hπσ₂, hπσ₂] at h
    · intro j
      obtain ⟨k, hk⟩ := hσ₂.2 (π₂ j)
      refine ⟨k, ?_⟩
      apply hπ₂.1
      rw [hπσ₂, hk]
  have hl1' : ∀ k : Fin 5,
      labelAt (permuteSheet π₁ π₂ s) (1 + (σ₁' k : ℕ)) = labelOf k := by
    intro k
    rw [labelAt_permute π₁ π₂ s hne (by rw [hw]; have := (σ₁' k).isLt; omega)]
    rw [permIdx_block1, hπσ₁ k]
    exact hl1 k
  have hl2' : ∀ k : Fin 5,
      labelAt (permuteSheet π₁ π₂ s) (8 + (σ₂' k : ℕ)) = labelOf k := by
    intro k
    rw [labelAt_permute π₁ π₂ s hne (by rw [hw]; have := (σ₂' k).isLt; omega)]
    rw [permIdx_block2, hπσ₂ k]
    exact hl2 k
  apply load_lookup_eq
  · rfl
  · exact dateColumn_permute π₁ π₂ s (by omega)
  · rw [permuteSheet]
    cases s.drows <;> simp
  · intro n
    by_cases h1 : ∃ k : Fin 5, n = u1name k
    · obtain ⟨k, rfl⟩ := h1
      rw [new_cols_u1_lookup (permuteSheet π₁ π₂ s) hw' hσ₁'bij hσ₂'bij hl1' hl2' k,
        new_cols_u1_lookup s hw hσ₁ hσ₂ hl1 hl2 k]
      rw [colData_permute π₁ π₂ s (by rw [hw]; have := (σ₁' k).isLt; omega)]
      rw [permIdx_block1, hπσ₁ k]
    · by_cases h2 : ∃ k : Fin 5, n = u2name k
      · obtain ⟨k, rfl⟩ := h2
        rw [new_cols_u2_lookup (permuteSheet π₁ π₂ s) hw' hσ₁'bij hσ₂'bij hl1' hl2' k,
          new_cols_u2_lookup s hw hσ₁ hσ₂ hl1 hl2 k]
        rw [colData_permute π₁ π₂ s (by rw [hw]; have := (σ₂' k).isLt; omega)]
        rw [permIdx_block2, hπσ₂ k]
      · have hn1 : ∀ k : Fin 5, n ≠ u1name k := fun k hk => h1 ⟨k, hk⟩
        have hn2 : ∀ k : Fin 5, n ≠ u2name k := fun k hk => h2 ⟨k, hk⟩
        rw [new_cols_other_lookup (permuteSheet π₁ π₂ s) hw' hσ₁'bij hσ₂'bij
            hl1' hl2' n hn1 hn2,
          new_cols_other_lookup s hw hσ₁ hσ₂ hl1 hl2 n hn1 hn2]

/-- A fully-labelled 13-column sheet with labels in the standard order. -/
def sheet13 : Sheet :=
  ⟨13, [[PCell.str "日期", PCell.str "曝光", PCell.str "新招呼", PCell.str "补刀次数",
         PCell.str "交换微信", PCell.str "添加微信", PCell.blank, PCell.str "日期",
         PCell.str "曝光", PCell.str "新招呼", PCell.str "补刀次数", PCell.str "交换微信",
         PCell.str "添加微信"],
        [PCell.num 45001, PCell.num 1, PCell.num 2, PCell.num 3, PCell.num 4,
         PCell.num 5, PCell.blank, PCell.num 45001, PCell.num 6, PCell.num 7,
         PCell.num 8, PCell.num 9, PCell.num 10]]⟩

/-- A concrete 5-cycle used to permute each block in the witness. -/
def permC : Fin 5 → Fin 5 := fun k => ⟨(k.val + 1) % 5, Nat.mod_lt _ (by omega)⟩

/-- C6 amended, witnessed: cycling both blocks of `sheet13` loads to the
same `user1_add` column and the same dates. -/
theorem C6_amended_permutation_invariance_witness :
    Except.map (fun df => assocGet df.cols "user1_add")
        (load_excel_data (permuteSheet permC permC sheet13))
      = Except.map (fun df => assocGet df.cols "user1_add")
          (load_excel_data sheet13) ∧
    Except.map DF.dates (load_excel_data (permuteSheet permC permC sheet13))
      = Except.map DF.dates (load_excel_data sheet13) :=
  ⟨(C6_amended_permutation_invariance sheet13 permC permC id id rfl
      (by decide) (by decide) (by decide) (by decide) (by decide) (by decide)).1
      "user1_add",
   (C6_amended_permutation_invariance sheet13 permC permC id id rfl
      (by decide) (by decide) (by decide) (by decide) (by decide) (by decide)).2⟩
